import Mathlib

/-!
The signal debounce and the CPU-profile rotation of go-doctor (`doctor.go`).

A shallow embedding of `src/doctor.go`.

* The receiver `*Doctor` is the record `Doctor`; a method returns the new record.
* Everything the code does to the outside (logger calls, `os.Create`, `pprof`,
  `signal.Notify`, the `go` statement, `os.Exit`) is appended, in program order, to a
  trace `World = List Event`.
* What the outside answers is an argument: the value `time.Now()` returns, and whether
  `os.Create` returned a nil error.
* `time.Time` is an integer count of nanoseconds since the zero `Time`; the zero value of
  the field `startTime` is `0`.  `Time.Sub` saturates to the range of `time.Duration`.
* `writes` is a Go `int`, taken 64 bits wide (the 64-bit targets).  The field holds an
  integer of the range `minInt .. maxInt`, and the increment wraps around as Go arithmetic
  does (`wrapInt`).
-/

namespace GoDoctor

/-! ## Time -/

/-- Nanoseconds since the zero `time.Time`. -/
abbrev Time := Int

/-- The smallest `time.Duration` (an `int64` of nanoseconds). -/
def minDuration : Int := -9223372036854775808

/-- The largest `time.Duration`. -/
def maxDuration : Int := 9223372036854775807

/-- The method `t.Sub(u)`: the difference, saturated to the range of `time.Duration`. -/
def Sub (t u : Time) : Int :=
  if t - u < minDuration then minDuration
  else if maxDuration < t - u then maxDuration
  else t - u

/-! ## The type int -/

/-- The smallest `int`. -/
def minInt : Int := -9223372036854775808

/-- The largest `int`. -/
def maxInt : Int := 9223372036854775807

/-- The value an `int` expression has when its exact result is `x`: the result modulo
`2^64`, taken in the range `minInt .. maxInt`. -/
def wrapInt (x : Int) : Int :=
  (x + 9223372036854775808) % 18446744073709551616 - 9223372036854775808

/-! ## strconv.Itoa -/

/-- The character of one decimal digit. -/
def digitChar (n : Nat) : Char :=
  if n = 0 then '0' else if n = 1 then '1' else if n = 2 then '2' else if n = 3 then '3'
  else if n = 4 then '4' else if n = 5 then '5' else if n = 6 then '6' else if n = 7 then '7'
  else if n = 8 then '8' else '9'

/-- The decimal digits of `n`, most significant first, in front of `acc`. -/
def decimalAux : Nat → Nat → List Char → List Char
  | 0, _, acc => acc
  | fuel + 1, n, acc =>
    if n < 10 then digitChar n :: acc
    else decimalAux fuel (n / 10) (digitChar (n % 10) :: acc)

/-- The decimal digits of a natural number. -/
def decimal (n : Nat) : List Char := decimalAux (n + 1) n []

/-- The function `strconv.Itoa`: base 10, with a leading minus sign for a negative value. -/
def Itoa (i : Int) : String :=
  if i < 0 then String.mk ('-' :: decimal i.natAbs) else String.mk (decimal i.toNat)

/-! ## The trace of external effects -/

/-- The levels of the logger this file uses. -/
inductive Level
  | debug
  | info
  | error
  deriving DecidableEq, Repr

/-- An argument handed to a logger call. -/
inductive Arg
  /-- A string of the program. -/
  | str (s : String)
  /-- A `time.Duration`, in nanoseconds. -/
  | duration (ns : Int)
  /-- A value read from the Go runtime, named by the expression that reads it. -/
  | stat (expr : String)
  /-- The error value `os.Create` returned. -/
  | err
  deriving DecidableEq, Repr

/-- One call that leaves the package, in the order the program makes them. -/
inductive Event
  /-- A call of `logger.Debugf`, `logger.Infof` or `logger.Errorf`. -/
  | log (level : Level) (format : String) (args : List Arg)
  /-- A call `os.Create(path)`; `ok` says that the error was nil. -/
  | osCreate (path : String) (ok : Bool)
  /-- A call `pprof.WriteHeapProfile(f)`, `f` the file created at `path`. -/
  | pprofWriteHeapProfile (path : String)
  /-- A call `pprof.StartCPUProfile(f)`, `f` the file created at `path`. -/
  | pprofStartCPUProfile (path : String)
  /-- A call `pprof.StopCPUProfile()`. -/
  | pprofStopCPUProfile
  /-- A call `debug.ReadGCStats(stats)`. -/
  | readGCStats
  /-- A call `runtime.ReadMemStats(stats)`. -/
  | readMemStats
  /-- A call `logger.SetLevel(l)`. -/
  | loggerSetLevel (l : Level)
  /-- The statement `go this.processSignal(sig)`. -/
  | goProcessSignal
  /-- A call `signal.Notify(sig, os.Interrupt)`. -/
  | signalNotify
  /-- A call `os.Exit(status)`. -/
  | osExit (status : Int)
  /-- Ghost marker: the method `Update` has been entered. -/
  | enterUpdate
  deriving DecidableEq, Repr

/-- The effects so far, oldest first. -/
abbrev World := List Event

/-- A call of `logger.Debugf`. -/
def Debugf (w : World) (format : String) (args : List Arg) : World :=
  w ++ [Event.log Level.debug format args]

/-- A call of `logger.Infof`. -/
def Infof (w : World) (format : String) (args : List Arg) : World :=
  w ++ [Event.log Level.info format args]

/-- A call of `logger.Errorf`. -/
def Errorf (w : World) (format : String) (args : List Arg) : World :=
  w ++ [Event.log Level.error format args]

/-! ## The controller -/

/-- The struct `Doctor`.  The defaults are the zero values of the Go types.  The field
`writes` is an `int`: a value of the range `minInt .. maxInt`. -/
structure Doctor where
  startTime : Time := 0
  writes : Int := 0
  memprofFile : String := ""
  cpuprofFile : String := ""
  lastSignal : Option Time := none
  logLevel : Int := 0
  enable : Bool := false
  showGCStats : Bool := false
  showMemStats : Bool := false
  showGoroutineStats : Bool := false
  deriving DecidableEq, Repr

/-- The method `writeGCStats`. -/
def writeGCStats (d : Doctor) (w : World) : World :=
  if !d.showGCStats then w
  else
    let w := w ++ [Event.readGCStats]
    let w := Infof w "===GCStats======" []
    let w := Infof w "gc:last_gc %v" [Arg.stat "stats.LastGC"]
    let w := Infof w "gc:num_gc %v" [Arg.stat "stats.NumGC"]
    let w := Infof w "gc:pause_total %v" [Arg.stat "stats.PauseTotal"]
    let w := Infof w "gc:pause %v" [Arg.stat "stats.Pause"]
    Infof w "gc:pause_quantiles %v" [Arg.stat "stats.PauseQuantiles"]

/-- The method `writeMemStats`. -/
def writeMemStats (d : Doctor) (w : World) : World :=
  if !d.showMemStats then w
  else
    let w := w ++ [Event.readMemStats]
    let w := Infof w "===memStats=====" []
    let w := Infof w "mem:alloc %v - %v"
      [Arg.stat "stats.Alloc", Arg.str "bytes allocated and still in use"]
    let w := Infof w "mem:total_alloc %v - %v"
      [Arg.stat "stats.TotalAlloc", Arg.str "bytes allocated (even if freed)"]
    let w := Infof w "mem:sys %v - %v"
      [Arg.stat "stats.Sys", Arg.str "bytes obtained from system (sum of XxxSys below)"]
    let w := Infof w "mem:lookups %v - %v"
      [Arg.stat "stats.Lookups", Arg.str "number of pointer lookups"]
    let w := Infof w "mem:mallocs %v - %v"
      [Arg.stat "stats.Mallocs", Arg.str "number of mallocs"]
    let w := Infof w "mem:frees %v - %v"
      [Arg.stat "stats.Frees", Arg.str "number of frees"]
    let w := Infof w "================" []
    let w := Infof w "mem:heap_alloc %v - %v"
      [Arg.stat "stats.HeapAlloc", Arg.str "bytes allocated and still in use"]
    let w := Infof w "mem:heap_sys %v - %v"
      [Arg.stat "stats.HeapSys", Arg.str "bytes obtained from system"]
    let w := Infof w "mem:heap_idle %v - %v"
      [Arg.stat "stats.HeapIdle", Arg.str "bytes in idle spans"]
    let w := Infof w "mem:heap_in_use %v - %v"
      [Arg.stat "stats.HeapInuse", Arg.str "bytes in non-idle spans"]
    let w := Infof w "mem:heap_released %v - %v"
      [Arg.stat "stats.HeapReleased", Arg.str "bytes in released to the OS"]
    let w := Infof w "mem:heap_objects %v - %v"
      [Arg.stat "stats.HeapObjects", Arg.str "total number of allocated objects"]
    let w := Infof w "================" []
    let w := Infof w "mem:next_gc %v -%v"
      [Arg.stat "stats.NextGC", Arg.str "next run in HeapAlloc time (bytes)"]
    let w := Infof w "mem:last_gc %v - %v"
      [Arg.stat "stats.LastGC", Arg.str "last run in absolute time (ns)"]
    let w := Infof w "mem:pause_total_ns %v" [Arg.stat "stats.PauseTotalNs"]
    let w := Infof w "mem:pause_ns %v - %v"
      [Arg.stat "stats.PauseNs",
       Arg.str "circular buffer of recent GC pause times, most recent at [(NumGC+255)%256]"]
    let w := Infof w "mem:num_gc %v" [Arg.stat "stats.NumGC"]
    let w := Infof w "mem:enable_gc %v" [Arg.stat "stats.EnableGC"]
    Infof w "mem:debug_gc %v" [Arg.stat "stats.DebugGC"]

/-- The method `writeGoroutineStats`. -/
def writeGoroutineStats (d : Doctor) (w : World) : World :=
  if !d.showGoroutineStats then w
  else
    let w := Infof w "===GoroutineStats" []
    let w := Infof w "num_goroutine: %v" [Arg.stat "runtime.NumGoroutine()"]
    Infof w "================" []

/-- The method `startCPUProfile`; `cpuOk` says that `os.Create` returned a nil error. -/
def startCPUProfile (d : Doctor) (w : World) (cpuOk : Bool) : Doctor × World :=
  let w := Debugf w "Starting CPUProfile..." []
  let d := { d with writes := wrapInt (d.writes + 1) }
  let path := d.cpuprofFile ++ "_" ++ Itoa d.writes
  let w := w ++ [Event.osCreate path cpuOk]
  if cpuOk then
    (d, w ++ [Event.pprofStartCPUProfile path])
  else
    let d := { d with cpuprofFile := "" }
    (d, Errorf w "Error occured %v" [Arg.err])

/-- The method `Update`; `memOk` and `cpuOk` say that the `os.Create` of the heap profile
and of the CPU profile returned a nil error. -/
def Update (d : Doctor) (w : World) (memOk cpuOk : Bool) : Doctor × World :=
  let w := w ++ [Event.enterUpdate]
  let w := writeGCStats d w
  let w := writeGoroutineStats d w
  let w := writeMemStats d w
  let w :=
    if d.memprofFile ≠ "" then
      let w := w ++ [Event.osCreate d.memprofFile memOk]
      if memOk then
        let w := w ++ [Event.pprofWriteHeapProfile d.memprofFile]
        Infof w ">> writing heap profile to %v" [Arg.str d.memprofFile]
      else
        Errorf w "couldn't write to %v" [Arg.str d.memprofFile]
    else w
  if d.cpuprofFile ≠ "" then
    let w := Infof w ">> writing cpu samples to %v" [Arg.str d.cpuprofFile]
    let w := w ++ [Event.pprofStopCPUProfile]
    startCPUProfile d w cpuOk
  else (d, w)

/-- One signal received by the listener, with what the outside answers while the loop
body handles it.  The channel is unbuffered, so a signal that arrives while the loop body
runs is not delivered; only the signals that `<-s` returns are triggers. -/
structure Trigger where
  /-- The instant the signal arrives, that is when `<-s` returns. -/
  arrival : Time
  /-- The value of `time.Now()` in the runtime log line. -/
  nowLog : Time
  /-- The value of `time.Now()` in the double-signal check. -/
  nowCheck : Time
  /-- The value of `time.Now()` stored in `lastSignal`. -/
  nowRecord : Time
  /-- Does `os.Create` of the heap profile succeed? -/
  memOk : Bool
  /-- Does `os.Create` of the CPU profile succeed? -/
  cpuOk : Bool
  deriving DecidableEq, Repr

/-- Where the listener stands after the signals it was given. -/
inductive Outcome
  /-- The loop is blocked on `<-s`. -/
  | waiting (d : Doctor) (w : World)
  /-- The process has ended in `os.Exit(status)`. -/
  | exited (status : Int) (d : Doctor) (w : World)
  deriving DecidableEq, Repr

/-- The controller of an outcome. -/
def Outcome.doctor : Outcome → Doctor
  | Outcome.waiting d _ => d
  | Outcome.exited _ d _ => d

/-- The trace of an outcome. -/
def Outcome.world : Outcome → World
  | Outcome.waiting _ w => w
  | Outcome.exited _ _ w => w

/-- The exit status of an outcome, if the process has ended. -/
def Outcome.status : Outcome → Option Int
  | Outcome.waiting _ _ => none
  | Outcome.exited s _ _ => some s

/-- The body of the loop of `processSignal`, for one received signal. -/
def processSignalBody (d : Doctor) (w : World) (t : Trigger) : Outcome :=
  let w := Infof w "\n\n\nruntime: %v" [Arg.duration (Sub t.nowLog d.startTime)]
  if (match d.lastSignal with
      | none => false
      | some last => decide (Sub t.nowCheck last < 1000000000)) then
    Outcome.exited 2 d (w ++ [Event.osExit 2])
  else
    let r := Update d w t.memOk t.cpuOk
    let w := Infof r.2 "hit C-c again within a second to exit" []
    let signalTime := t.nowRecord
    Outcome.waiting { r.1 with lastSignal := some signalTime } w

/-- The loop of `processSignal` over the signals received; it ends with the process. -/
def processSignalLoop (d : Doctor) (w : World) : List Trigger → Outcome
  | [] => Outcome.waiting d w
  | t :: ts =>
    match processSignalBody d w t with
    | Outcome.exited s d1 w1 => Outcome.exited s d1 w1
    | Outcome.waiting d1 w1 => processSignalLoop d1 w1 ts

/-- The method `processSignal`, given the signals the channel delivers. -/
def processSignal (d : Doctor) (w : World) (ts : List Trigger) : Outcome :=
  let w := Debugf w "setting up interrupt signal" []
  processSignalLoop d w ts

/-- The method `Start`; `now` is the value of `time.Now()`. -/
def Start (d : Doctor) (w : World) (now : Time) (cpuOk : Bool) : Doctor × World :=
  let w := w ++ [Event.loggerSetLevel Level.info]
  let w := Infof w "Calling a Doctor..." []
  let d := { d with startTime := now }
  let w := w ++ [Event.goProcessSignal]
  let w := w ++ [Event.signalNotify]
  startCPUProfile d w cpuOk

/-- The values of the command-line flags after `flag.Parse()`; the defaults are the ones
`StartWithFlags` declares. -/
structure Flags where
  doctor : Bool := false
  cpu : String := "prof.cprof"
  mem : String := "prof.mprof"
  statsgc : Bool := true
  statsmem : Bool := true
  statsgoroutine : Bool := true
  deriving DecidableEq, Repr

/-- The function `StartWithFlags`. -/
def StartWithFlags (f : Flags) (w : World) (now : Time) (cpuOk : Bool) : Doctor × World :=
  let doctor : Doctor := {}
  let doctor := { doctor with enable := f.doctor }
  let doctor := { doctor with cpuprofFile := f.cpu }
  let doctor := { doctor with memprofFile := f.mem }
  let doctor := { doctor with showGCStats := f.statsgc }
  let doctor := { doctor with showMemStats := f.statsmem }
  let doctor := { doctor with showGoroutineStats := f.statsgoroutine }
  if !doctor.enable then (doctor, w)
  else Start doctor w now cpuOk

/-! ## Sequences of calls -/

/-- A call of one of the two exported methods that rotate the CPU profile. -/
inductive Call
  /-- A call of `Start`, with the value of `time.Now()` and the answer of `os.Create`. -/
  | start (now : Time) (cpuOk : Bool)
  /-- A call of `Update`, with the two answers of `os.Create`. -/
  | update (memOk cpuOk : Bool)
  deriving DecidableEq, Repr

/-- Does the `os.Create` of the CPU profile succeed in this call? -/
def Call.cpuOk : Call → Bool
  | Call.start _ ok => ok
  | Call.update _ ok => ok

/-- One call on the controller. -/
def Call.apply (d : Doctor) (w : World) : Call → Doctor × World
  | Call.start now ok => Start d w now ok
  | Call.update memOk ok => Update d w memOk ok

/-- The calls of a list, one after the other. -/
def run (d : Doctor) (w : World) : List Call → Doctor × World
  | [] => (d, w)
  | c :: cs => run (c.apply d w).1 (c.apply d w).2 cs

/-- Consecutive calls of `Update`; each pair holds the answers of `os.Create` for the heap
profile and for the CPU profile. -/
def updates (d : Doctor) (w : World) : List (Bool × Bool) → Doctor × World
  | [] => (d, w)
  | a :: as => updates (Update d w a.1 a.2).1 (Update d w a.1 a.2).2 as

/-! ## What a trace shows -/

/-- The CPU profile files created: the files handed to `pprof.StartCPUProfile`. -/
def cpuFiles (w : World) : List String :=
  w.filterMap fun e =>
    match e with
    | Event.pprofStartCPUProfile p => some p
    | _ => none

/-- The heap profile files created: the files handed to `pprof.WriteHeapProfile`. -/
def heapFiles (w : World) : List String :=
  w.filterMap fun e =>
    match e with
    | Event.pprofWriteHeapProfile p => some p
    | _ => none

/-- The calls of `os.Create`, with their outcome. -/
def createCalls (w : World) : List (String × Bool) :=
  w.filterMap fun e =>
    match e with
    | Event.osCreate p ok => some (p, ok)
    | _ => none

/-- How often `Update` has been entered. -/
def updateCalls (w : World) : Nat := w.count Event.enterUpdate

/-- How often `startCPUProfile` has run: it announces itself on entry. -/
def startCPUProfileCalls (w : World) : Nat :=
  w.count (Event.log Level.debug "Starting CPUProfile..." [])

/-- How many errors `startCPUProfile` has logged. -/
def cpuErrors (w : World) : Nat :=
  w.count (Event.log Level.error "Error occured %v" [Arg.err])

/-- How many calls of `os.Exit` the trace holds. -/
def exitCalls (w : World) : Nat :=
  (w.filter fun e =>
    match e with
    | Event.osExit _ => true
    | _ => false).length

/-- A controller with the three stats categories switched on. -/
def allStats : Doctor :=
  { showGCStats := true, showMemStats := true, showGoroutineStats := true }

/-- Every effect the three stats methods have when their category is switched on. -/
def statsEvents : World :=
  writeMemStats allStats (writeGoroutineStats allStats (writeGCStats allStats []))

/-- Is the event a stats log line, or the runtime read behind one? -/
def isStatsEvent (e : Event) : Bool := decide (e ∈ statsEvents)

/-! ## Spacing of the signals -/

/-- Each signal arrives at least one second after the one before. -/
def arrivalsSpaced : List Trigger → Bool
  | [] => true
  | [_] => true
  | t :: u :: ts => decide (t.arrival + 1000000000 ≤ u.arrival) && arrivalsSpaced (u :: ts)

/-- The clock does not run backwards: within a signal the readings follow the arrival in
program order, and a signal is received only after the loop body of the one before has
ended. -/
def clockOrdered : List Trigger → Bool
  | [] => true
  | [t] => decide (t.arrival ≤ t.nowLog ∧ t.nowLog ≤ t.nowCheck ∧ t.nowCheck ≤ t.nowRecord)
  | t :: u :: ts =>
    decide (t.arrival ≤ t.nowLog ∧ t.nowLog ≤ t.nowCheck ∧ t.nowCheck ≤ t.nowRecord)
      && decide (t.nowRecord ≤ u.arrival) && clockOrdered (u :: ts)

/-- Each check reads a time at least one second after the time stored in `lastSignal`:
`last` is the field at the start, and every handled signal stores its `nowRecord`. -/
def spacedFromRecord : Option Time → List Trigger → Bool
  | _, [] => true
  | none, t :: ts => spacedFromRecord (some t.nowRecord) ts
  | some last, t :: ts =>
    decide (last + 1000000000 ≤ t.nowCheck) && spacedFromRecord (some t.nowRecord) ts

/-- The names `base_1`, ..., `base_k`. -/
def profileNames (base : String) (k : Nat) : List String :=
  (List.range k).map fun (i : Nat) => base ++ "_" ++ Itoa ((i : Int) + 1)

/-! ## Concrete runs -/

/-- The controller and trace after `StartWithFlags` with `-doctor` and the defaults. -/
def enabledDefault : Doctor × World := StartWithFlags { doctor := true } [] 0 true

/-- Two signals arriving one second apart; the first `Update` takes half a second. -/
def slowUpdateTriggers : List Trigger :=
  [ { arrival := 1000000000, nowLog := 1000000000, nowCheck := 1000000000,
      nowRecord := 1500000000, memOk := true, cpuOk := true },
    { arrival := 2000000000, nowLog := 2000000000, nowCheck := 2000000000,
      nowRecord := 2000000001, memOk := true, cpuOk := true } ]

/-- The controller and trace after `StartWithFlags` with `-doctor -cpu x`. -/
def enabledX : Doctor × World := StartWithFlags { doctor := true, cpu := "x" } [] 0 true

/-- Two signals three seconds apart, every file creation succeeding. -/
def farTriggers : List Trigger :=
  [ { arrival := 2000000000, nowLog := 2000000001, nowCheck := 2000000002,
      nowRecord := 2000000500, memOk := true, cpuOk := true },
    { arrival := 5000000000, nowLog := 5000000001, nowCheck := 5000000002,
      nowRecord := 5000000500, memOk := true, cpuOk := true } ]

/-! ## Time.Sub -/

theorem Sub_lt_second_iff (t u : Time) :
    Sub t u < 1000000000 ↔ t - u < 1000000000 := by
  have key : ∀ x : Int,
      (if x < -9223372036854775808 then (-9223372036854775808 : Int)
        else if 9223372036854775807 < x then 9223372036854775807 else x) < 1000000000
        ↔ x < 1000000000 := by
    intro x
    split_ifs <;> constructor <;> intro h <;> omega
  exact key (t - u)

/-! ## The type int -/

theorem wrapInt_of_range {x : Int} (hlo : minInt ≤ x) (hhi : x ≤ maxInt) : wrapInt x = x := by
  unfold wrapInt
  unfold minInt at hlo
  unfold maxInt at hhi
  omega

theorem wrapInt_range (x : Int) : minInt ≤ wrapInt x ∧ wrapInt x ≤ maxInt := by
  unfold wrapInt minInt maxInt
  omega

/-! ## Projections of a trace -/

theorem cpuFiles_append (w v : World) : cpuFiles (w ++ v) = cpuFiles w ++ cpuFiles v := by
  simp [cpuFiles]

theorem heapFiles_append (w v : World) : heapFiles (w ++ v) = heapFiles w ++ heapFiles v := by
  simp [heapFiles]

theorem createCalls_append (w v : World) :
    createCalls (w ++ v) = createCalls w ++ createCalls v := by
  simp [createCalls]

theorem updateCalls_append (w v : World) :
    updateCalls (w ++ v) = updateCalls w + updateCalls v := by
  simp [updateCalls]

theorem startCPUProfileCalls_append (w v : World) :
    startCPUProfileCalls (w ++ v) = startCPUProfileCalls w + startCPUProfileCalls v := by
  simp [startCPUProfileCalls]

theorem cpuErrors_append (w v : World) : cpuErrors (w ++ v) = cpuErrors w + cpuErrors v := by
  simp [cpuErrors]

theorem exitCalls_append (w v : World) : exitCalls (w ++ v) = exitCalls w + exitCalls v := by
  simp [exitCalls]

/-! ## The stats methods only append -/

theorem writeGCStats_append (d : Doctor) (w : World) :
    writeGCStats d w = w ++ writeGCStats d [] := by
  cases h : d.showGCStats <;> simp [writeGCStats, h, Infof]

theorem writeMemStats_append (d : Doctor) (w : World) :
    writeMemStats d w = w ++ writeMemStats d [] := by
  cases h : d.showMemStats <;> simp [writeMemStats, h, Infof]

theorem writeGoroutineStats_append (d : Doctor) (w : World) :
    writeGoroutineStats d w = w ++ writeGoroutineStats d [] := by
  cases h : d.showGoroutineStats <;> simp [writeGoroutineStats, h, Infof]

/-- The effects of the three stats methods of one `Update`. -/
theorem stats_append (d : Doctor) (w : World) :
    writeMemStats d (writeGoroutineStats d (writeGCStats d w))
      = w ++ writeMemStats d (writeGoroutineStats d (writeGCStats d [])) := by
  rw [writeMemStats_append, writeGoroutineStats_append, writeGCStats_append,
    writeMemStats_append d (writeGoroutineStats d _), writeGoroutineStats_append d (writeGCStats d [])]
  simp [List.append_assoc]

/-- Every effect of the stats methods is a stats event. -/
theorem stats_isStatsEvent (d : Doctor) :
    ∀ e ∈ writeMemStats d (writeGoroutineStats d (writeGCStats d [])), isStatsEvent e = true := by
  cases h1 : d.showGCStats <;> cases h2 : d.showMemStats <;> cases h3 : d.showGoroutineStats <;>
    simp [writeGCStats, writeMemStats, writeGoroutineStats, h1, h2, h3, Infof] <;> decide

/-- No stats event is a profile file, a file creation, a call marker or an error. -/
theorem stats_projections (d : Doctor) :
    cpuFiles (writeMemStats d (writeGoroutineStats d (writeGCStats d []))) = []
    ∧ heapFiles (writeMemStats d (writeGoroutineStats d (writeGCStats d []))) = []
    ∧ createCalls (writeMemStats d (writeGoroutineStats d (writeGCStats d []))) = []
    ∧ updateCalls (writeMemStats d (writeGoroutineStats d (writeGCStats d []))) = 0
    ∧ startCPUProfileCalls (writeMemStats d (writeGoroutineStats d (writeGCStats d []))) = 0
    ∧ cpuErrors (writeMemStats d (writeGoroutineStats d (writeGCStats d []))) = 0
    ∧ exitCalls (writeMemStats d (writeGoroutineStats d (writeGCStats d []))) = 0 := by
  cases h1 : d.showGCStats <;> cases h2 : d.showMemStats <;> cases h3 : d.showGoroutineStats <;>
    simp [writeGCStats, writeMemStats, writeGoroutineStats, h1, h2, h3, Infof] <;> decide

/-! ## startCPUProfile and Update, spelled out -/

theorem startCPUProfile_eq (d : Doctor) (w : World) (cpuOk : Bool) :
    startCPUProfile d w cpuOk
      = ({ d with writes := wrapInt (d.writes + 1), cpuprofFile := if cpuOk then d.cpuprofFile else "" },
         w ++ [Event.log Level.debug "Starting CPUProfile..." [],
               Event.osCreate (d.cpuprofFile ++ "_" ++ Itoa (wrapInt (d.writes + 1))) cpuOk,
               if cpuOk then
                 Event.pprofStartCPUProfile
                   (d.cpuprofFile ++ "_" ++ Itoa (wrapInt (d.writes + 1)))
               else Event.log Level.error "Error occured %v" [Arg.err]]) := by
  cases cpuOk <;> simp [startCPUProfile, Debugf, Errorf]

theorem Update_fst (d : Doctor) (w : World) (memOk cpuOk : Bool) :
    (Update d w memOk cpuOk).1
      = if d.cpuprofFile = "" then d
        else { d with writes := wrapInt (d.writes + 1),
                      cpuprofFile := if cpuOk then d.cpuprofFile else "" } := by
  unfold Update
  by_cases h : d.cpuprofFile = "" <;> simp [h, startCPUProfile_eq]

theorem Update_snd (d : Doctor) (w : World) (memOk cpuOk : Bool) :
    (Update d w memOk cpuOk).2
      = w ++ [Event.enterUpdate] ++ writeMemStats d (writeGoroutineStats d (writeGCStats d []))
        ++ (if d.memprofFile = "" then []
            else if memOk then
              [Event.osCreate d.memprofFile true, Event.pprofWriteHeapProfile d.memprofFile,
               Event.log Level.info ">> writing heap profile to %v" [Arg.str d.memprofFile]]
            else
              [Event.osCreate d.memprofFile false,
               Event.log Level.error "couldn't write to %v" [Arg.str d.memprofFile]])
        ++ (if d.cpuprofFile = "" then []
            else
              [Event.log Level.info ">> writing cpu samples to %v" [Arg.str d.cpuprofFile],
               Event.pprofStopCPUProfile,
               Event.log Level.debug "Starting CPUProfile..." [],
               Event.osCreate (d.cpuprofFile ++ "_" ++ Itoa (wrapInt (d.writes + 1))) cpuOk,
               if cpuOk then
                 Event.pprofStartCPUProfile (d.cpuprofFile ++ "_" ++ Itoa (wrapInt (d.writes + 1)))
               else Event.log Level.error "Error occured %v" [Arg.err]]) := by
  unfold Update
  simp only [stats_append d (w ++ [Event.enterUpdate])]
  by_cases hc : d.cpuprofFile = "" <;> by_cases hm : d.memprofFile = "" <;> cases memOk <;>
    simp [hc, hm, startCPUProfile_eq, Infof, Errorf]

theorem cpuFiles_Update (d : Doctor) (w : World) (memOk cpuOk : Bool) :
    cpuFiles (Update d w memOk cpuOk).2
      = cpuFiles w ++ (if d.cpuprofFile ≠ "" ∧ cpuOk = true then
          [d.cpuprofFile ++ "_" ++ Itoa (wrapInt (d.writes + 1))] else []) := by
  rw [Update_snd]
  simp only [cpuFiles_append, (stats_projections d).1]
  by_cases hc : d.cpuprofFile = "" <;> by_cases hm : d.memprofFile = "" <;> cases memOk <;>
    cases cpuOk <;> simp [hc, hm, cpuFiles]

theorem heapFiles_Update (d : Doctor) (w : World) (memOk cpuOk : Bool) :
    heapFiles (Update d w memOk cpuOk).2
      = heapFiles w ++ (if d.memprofFile ≠ "" ∧ memOk = true then [d.memprofFile] else []) := by
  rw [Update_snd]
  simp only [heapFiles_append, (stats_projections d).2.1]
  by_cases hc : d.cpuprofFile = "" <;> by_cases hm : d.memprofFile = "" <;> cases memOk <;>
    cases cpuOk <;> simp [hc, hm, heapFiles]

theorem createCalls_Update (d : Doctor) (w : World) (memOk cpuOk : Bool) :
    createCalls (Update d w memOk cpuOk).2
      = createCalls w ++ (if d.memprofFile = "" then [] else [(d.memprofFile, memOk)])
        ++ (if d.cpuprofFile = "" then []
            else [(d.cpuprofFile ++ "_" ++ Itoa (wrapInt (d.writes + 1)), cpuOk)]) := by
  rw [Update_snd]
  simp only [createCalls_append, (stats_projections d).2.2.1]
  by_cases hc : d.cpuprofFile = "" <;> by_cases hm : d.memprofFile = "" <;> cases memOk <;>
    cases cpuOk <;> simp [hc, hm, createCalls]

theorem updateCalls_Update (d : Doctor) (w : World) (memOk cpuOk : Bool) :
    updateCalls (Update d w memOk cpuOk).2 = updateCalls w + 1 := by
  rw [Update_snd]
  simp only [updateCalls_append, (stats_projections d).2.2.2.1]
  by_cases hc : d.cpuprofFile = "" <;> by_cases hm : d.memprofFile = "" <;> cases memOk <;>
    cases cpuOk <;> simp [hc, hm, updateCalls]

theorem startCPUProfileCalls_Update (d : Doctor) (w : World) (memOk cpuOk : Bool) :
    startCPUProfileCalls (Update d w memOk cpuOk).2
      = startCPUProfileCalls w + (if d.cpuprofFile = "" then 0 else 1) := by
  rw [Update_snd]
  simp only [startCPUProfileCalls_append, (stats_projections d).2.2.2.2.1]
  by_cases hc : d.cpuprofFile = "" <;> by_cases hm : d.memprofFile = "" <;> cases memOk <;>
    cases cpuOk <;> simp [hc, hm, startCPUProfileCalls]

theorem cpuErrors_Update (d : Doctor) (w : World) (memOk cpuOk : Bool) :
    cpuErrors (Update d w memOk cpuOk).2
      = cpuErrors w + (if d.cpuprofFile ≠ "" ∧ cpuOk = false then 1 else 0) := by
  rw [Update_snd]
  simp only [cpuErrors_append, (stats_projections d).2.2.2.2.2.1]
  by_cases hc : d.cpuprofFile = "" <;> by_cases hm : d.memprofFile = "" <;> cases memOk <;>
    cases cpuOk <;> simp [hc, hm, cpuErrors]

/-! ## strconv.Itoa is injective -/

theorem digitChar_injective {a b : Nat} (ha : a < 10) (hb : b < 10)
    (h : digitChar a = digitChar b) : a = b := by
  interval_cases a <;> interval_cases b <;> first | rfl | (exact absurd h (by decide))

theorem digitChar_ne_minus (a : Nat) : digitChar a ≠ '-' := by
  unfold digitChar
  split_ifs <;> decide

theorem decimalAux_acc (fuel : Nat) :
    ∀ (n : Nat) (acc : List Char), n < fuel →
      decimalAux fuel n acc = decimalAux fuel n [] ++ acc := by
  induction fuel with
  | zero => intro n acc h; omega
  | succ f ih =>
    intro n acc h
    unfold decimalAux
    by_cases h10 : n < 10
    · simp [h10]
    · simp only [h10, if_false]
      have hlt : n / 10 < f := by omega
      rw [ih (n / 10) (digitChar (n % 10) :: acc) hlt, ih (n / 10) [digitChar (n % 10)] hlt]
      simp

theorem decimalAux_fuel (f1 : Nat) :
    ∀ (f2 n : Nat) (acc : List Char), n < f1 → n < f2 →
      decimalAux f1 n acc = decimalAux f2 n acc := by
  induction f1 with
  | zero => intro f2 n acc h; omega
  | succ f ih =>
    intro f2 n acc h1 h2
    cases f2 with
    | zero => omega
    | succ g =>
      unfold decimalAux
      by_cases h10 : n < 10
      · simp [h10]
      · simp only [h10, if_false]
        exact ih g (n / 10) _ (by omega) (by omega)

theorem decimal_small {n : Nat} (h : n < 10) : decimal n = [digitChar n] := by
  simp [decimal, decimalAux, h]

theorem decimal_step {n : Nat} (h : ¬ n < 10) :
    decimal n = decimal (n / 10) ++ [digitChar (n % 10)] := by
  unfold decimal
  rw [decimalAux]
  simp only [h, if_false]
  rw [decimalAux_acc n (n / 10) _ (by omega)]
  rw [decimalAux_fuel n (n / 10 + 1) (n / 10) [] (by omega) (by omega)]

theorem decimal_ne_nil (n : Nat) : decimal n ≠ [] := by
  by_cases h : n < 10
  · simp [decimal_small h]
  · simp [decimal_step h]

theorem decimal_no_minus (n : Nat) : ∀ c ∈ decimal n, c ≠ '-' := by
  induction n using Nat.strong_induction_on with
  | _ n ih =>
    by_cases h : n < 10
    · intro c hc
      rw [decimal_small h] at hc
      simp at hc
      rw [hc]
      exact digitChar_ne_minus n
    · intro c hc
      rw [decimal_step h] at hc
      rcases List.mem_append.mp hc with hc | hc
      · exact ih (n / 10) (by omega) c hc
      · simp at hc
        rw [hc]
        exact digitChar_ne_minus _

theorem decimal_injective : ∀ (n m : Nat), decimal n = decimal m → n = m := by
  intro n
  induction n using Nat.strong_induction_on with
  | _ n ih =>
    intro m h
    by_cases hn : n < 10 <;> by_cases hm : m < 10
    · rw [decimal_small hn, decimal_small hm] at h
      exact digitChar_injective hn hm (by simpa using h)
    · rw [decimal_small hn, decimal_step hm] at h
      have hl := congrArg List.length h
      have := List.length_pos.mpr (decimal_ne_nil (m / 10))
      simp only [List.length_append, List.length_singleton, List.length_cons,
        List.length_nil] at hl
      omega
    · rw [decimal_step hn, decimal_small hm] at h
      have hl := congrArg List.length h
      have := List.length_pos.mpr (decimal_ne_nil (n / 10))
      simp only [List.length_append, List.length_singleton, List.length_cons,
        List.length_nil] at hl
      omega
    · rw [decimal_step hn, decimal_step hm] at h
      have h2 := List.append_inj' h rfl
      have e1 := ih (n / 10) (by omega) (m / 10) h2.1
      have e2 : n % 10 = m % 10 :=
        digitChar_injective (Nat.mod_lt _ (by decide)) (Nat.mod_lt _ (by decide))
          (by simpa using h2.2)
      omega

theorem Itoa_injective (i j : Int) (h : Itoa i = Itoa j) : i = j := by
  unfold Itoa at h
  by_cases hi : i < 0 <;> by_cases hj : j < 0
  · simp only [hi, hj, if_true] at h
    have h1 : decimal i.natAbs = decimal j.natAbs := by
      have := congrArg String.data h
      simpa using this
    have := decimal_injective _ _ h1
    omega
  · simp only [hi, hj, if_true, if_false] at h
    have h1 : '-' :: decimal i.natAbs = decimal j.toNat := congrArg String.data h
    have hmem : '-' ∈ decimal j.toNat := by rw [← h1]; simp
    exact absurd rfl (decimal_no_minus _ _ hmem)
  · simp only [hi, hj, if_true, if_false] at h
    have h1 : decimal i.toNat = '-' :: decimal j.natAbs := congrArg String.data h
    have hmem : '-' ∈ decimal i.toNat := by rw [h1]; simp
    exact absurd rfl (decimal_no_minus _ _ hmem)
  · simp only [hi, hj, if_false] at h
    have h1 : decimal i.toNat = decimal j.toNat := congrArg String.data h
    have := decimal_injective _ _ h1
    omega

theorem profileName_injective (base : String) (i j : Int)
    (h : base ++ "_" ++ Itoa i = base ++ "_" ++ Itoa j) : i = j := by
  apply Itoa_injective
  have h1 := congrArg String.data h
  simp only [String.data_append, List.append_assoc] at h1
  have h2 := List.append_cancel_left (List.append_cancel_left h1)
  exact String.ext h2

/-! ## The loop body of the listener -/

theorem updateCalls_log (w : World) (l : Level) (f : String) (a : List Arg) :
    updateCalls (w ++ [Event.log l f a]) = updateCalls w := by
  simp [updateCalls]

theorem exitCalls_log (w : World) (l : Level) (f : String) (a : List Arg) :
    exitCalls (w ++ [Event.log l f a]) = exitCalls w := by
  simp [exitCalls]

theorem startCPUProfileCalls_info (w : World) (f : String) (a : List Arg) :
    startCPUProfileCalls (w ++ [Event.log Level.info f a]) = startCPUProfileCalls w := by
  simp [startCPUProfileCalls]

theorem cpuFiles_log (w : World) (l : Level) (f : String) (a : List Arg) :
    cpuFiles (w ++ [Event.log l f a]) = cpuFiles w := by
  simp [cpuFiles]

theorem exitCalls_Update (d : Doctor) (w : World) (memOk cpuOk : Bool) :
    exitCalls (Update d w memOk cpuOk).2 = exitCalls w := by
  rw [Update_snd]
  simp only [exitCalls_append, (stats_projections d).2.2.2.2.2.2]
  by_cases hc : d.cpuprofFile = "" <;> by_cases hm : d.memprofFile = "" <;> cases memOk <;>
    cases cpuOk <;> simp [hc, hm, exitCalls]

/-- The body exits when `lastSignal` is set and the check reads a time under one second
after it. -/
theorem processSignalBody_near (d : Doctor) (w : World) (t : Trigger) (last : Time)
    (hset : d.lastSignal = some last) (hnear : Sub t.nowCheck last < 1000000000) :
    processSignalBody d w t
      = Outcome.exited 2 d
          (w ++ [Event.log Level.info "\n\n\nruntime: %v"
                   [Arg.duration (Sub t.nowLog d.startTime)],
                 Event.osExit 2]) := by
  simp [processSignalBody, hset, hnear, Infof]

/-- The body calls `Update` when `lastSignal` is unset or at least one second old. -/
theorem processSignalBody_far (d : Doctor) (w : World) (t : Trigger)
    (hfar : ∀ last, d.lastSignal = some last → ¬ Sub t.nowCheck last < 1000000000) :
    processSignalBody d w t
      = Outcome.waiting
          { (Update d (w ++ [Event.log Level.info "\n\n\nruntime: %v"
                [Arg.duration (Sub t.nowLog d.startTime)]]) t.memOk t.cpuOk).1 with
            lastSignal := some t.nowRecord }
          ((Update d (w ++ [Event.log Level.info "\n\n\nruntime: %v"
                [Arg.duration (Sub t.nowLog d.startTime)]]) t.memOk t.cpuOk).2
            ++ [Event.log Level.info "hit C-c again within a second to exit" []]) := by
  cases hl : d.lastSignal with
  | none => simp [processSignalBody, hl, Infof]
  | some last =>
    have := hfar last hl
    simp [processSignalBody, hl, this, Infof]

/-- C1: for every controller state and every signal the listener handles, if `lastSignal`
is set and the time read at the check minus `lastSignal` is under one second, the handler
ends the process with exit status 2 and does not invoke `Update` for that signal: the
controller (so `writes` and `cpuprofFile`), the files created and the `os.Create` calls are
unchanged, and the signals after it are never handled. -/
theorem processSignal_double_signal_exits (d : Doctor) (w : World) (t : Trigger)
    (ts : List Trigger) (last : Time)
    (hset : d.lastSignal = some last) (hnear : Sub t.nowCheck last < 1000000000) :
    (processSignalBody d w t).status = some 2
    ∧ (processSignalBody d w t).world
        = w ++ [Event.log Level.info "\n\n\nruntime: %v"
                  [Arg.duration (Sub t.nowLog d.startTime)],
                Event.osExit 2]
    ∧ updateCalls (processSignalBody d w t).world = updateCalls w
    ∧ (processSignalBody d w t).doctor = d
    ∧ cpuFiles (processSignalBody d w t).world = cpuFiles w
    ∧ heapFiles (processSignalBody d w t).world = heapFiles w
    ∧ createCalls (processSignalBody d w t).world = createCalls w
    ∧ processSignalLoop d w (t :: ts) = processSignalBody d w t := by
  have hb := processSignalBody_near d w t last hset hnear
  refine ⟨?_, ?_, ?_, ?_, ?_, ?_, ?_, ?_⟩
  · rw [hb]; rfl
  · rw [hb]; rfl
  · rw [hb]; simp [Outcome.world, updateCalls]
  · rw [hb]; rfl
  · rw [hb]; simp [Outcome.world, cpuFiles]
  · rw [hb]; simp [Outcome.world, heapFiles]
  · rw [hb]; simp [Outcome.world, createCalls]
  · simp [processSignalLoop, hb]

/-- C1, at a controller whose last signal was recorded 5 ns before the check. -/
theorem processSignal_double_signal_exits_witness :
    (processSignalBody { cpuprofFile := "x", writes := 1, lastSignal := some 100 } []
        { arrival := 103, nowLog := 104, nowCheck := 105, nowRecord := 106,
          memOk := true, cpuOk := true }).status = some 2
    ∧ (processSignalBody { cpuprofFile := "x", writes := 1, lastSignal := some 100 } []
        { arrival := 103, nowLog := 104, nowCheck := 105, nowRecord := 106,
          memOk := true, cpuOk := true }).doctor.writes = 1 :=
  have h := processSignal_double_signal_exits
    { cpuprofFile := "x", writes := 1, lastSignal := some 100 } []
    { arrival := 103, nowLog := 104, nowCheck := 105, nowRecord := 106,
      memOk := true, cpuOk := true } [] 100 rfl (by decide)
  ⟨h.1, by rw [h.2.2.2.1]⟩

/-- C2, as stated, fails: two signals arrive one second apart on an honest clock, the first
`Update` takes half a second, and the second signal ends the process with status 2 after a
single `Update`. -/
theorem processSignal_arrival_spacing_counterexample :
    slowUpdateTriggers.length = 2
    ∧ arrivalsSpaced slowUpdateTriggers = true
    ∧ clockOrdered slowUpdateTriggers = true
    ∧ enabledDefault.1.lastSignal = none
    ∧ (processSignal enabledDefault.1 enabledDefault.2 slowUpdateTriggers).status = some 2
    ∧ updateCalls (processSignal enabledDefault.1 enabledDefault.2 slowUpdateTriggers).world
        = 1 := by
  decide

theorem processSignalLoop_spaced (ts : List Trigger) :
    ∀ (d : Doctor) (w : World), spacedFromRecord d.lastSignal ts = true →
      (processSignalLoop d w ts).status = none
      ∧ updateCalls (processSignalLoop d w ts).world = updateCalls w + ts.length
      ∧ exitCalls (processSignalLoop d w ts).world = exitCalls w := by
  induction ts with
  | nil => intro d w _; simp [processSignalLoop, Outcome.status, Outcome.world]
  | cons t ts ih =>
    intro d w h
    have hfar : ∀ last, d.lastSignal = some last → ¬ Sub t.nowCheck last < 1000000000 := by
      intro last hl
      rw [hl] at h
      simp only [spacedFromRecord, Bool.and_eq_true, decide_eq_true_eq] at h
      rw [Sub_lt_second_iff]
      have h1 : (last : Int) + 1000000000 ≤ t.nowCheck := h.1
      intro hc
      have h2 : (t.nowCheck : Int) - last < 1000000000 := hc
      linarith
    have hnext : spacedFromRecord (some t.nowRecord) ts = true := by
      cases hl : d.lastSignal with
      | none => rw [hl] at h; simpa [spacedFromRecord] using h
      | some last =>
        rw [hl] at h
        simp only [spacedFromRecord, Bool.and_eq_true, decide_eq_true_eq] at h
        exact h.2
    rw [processSignalLoop, processSignalBody_far d w t hfar]
    have := ih { (Update d (w ++ [Event.log Level.info "\n\n\nruntime: %v"
                [Arg.duration (Sub t.nowLog d.startTime)]]) t.memOk t.cpuOk).1 with
            lastSignal := some t.nowRecord } ((Update d (w ++ [Event.log Level.info "\n\n\nruntime: %v"
                [Arg.duration (Sub t.nowLog d.startTime)]]) t.memOk t.cpuOk).2
            ++ [Event.log Level.info "hit C-c again within a second to exit" []]) hnext
    refine ⟨this.1, ?_, ?_⟩
    · rw [this.2.1, updateCalls_log, updateCalls_Update, updateCalls_log, List.length_cons]
      omega
    · rw [this.2.2, exitCalls_log, exitCalls_Update, exitCalls_log]

/-- C2, amended: for every N and every sequence of N signals in which each check reads a
time at least one second after the time stored in `lastSignal` (stored after the `Update`
of the signal before returned; the first signal is free when `lastSignal` is unset), the
listener never takes the exit branch and `Update` runs exactly N times. -/
theorem processSignal_spaced_from_record (d : Doctor) (w : World) (ts : List Trigger)
    (h : spacedFromRecord d.lastSignal ts = true) :
    (processSignal d w ts).status = none
    ∧ updateCalls (processSignal d w ts).world = updateCalls w + ts.length
    ∧ exitCalls (processSignal d w ts).world = exitCalls w := by
  have := processSignalLoop_spaced ts d (w ++ [Event.log Level.debug
    "setting up interrupt signal" []]) h
  unfold processSignal Debugf
  refine ⟨this.1, ?_, ?_⟩
  · rw [this.2.1, updateCalls_log]
  · rw [this.2.2, exitCalls_log]

/-- C2 amended, at two signals whose checks come a second after the recorded time. -/
theorem processSignal_spaced_from_record_witness :
    spacedFromRecord enabledX.1.lastSignal farTriggers = true
    ∧ (processSignal enabledX.1 enabledX.2 farTriggers).status = none
    ∧ updateCalls (processSignal enabledX.1 enabledX.2 farTriggers).world
        = updateCalls enabledX.2 + farTriggers.length :=
  ⟨by decide,
   (processSignal_spaced_from_record enabledX.1 enabledX.2 farTriggers (by decide)).1,
   (processSignal_spaced_from_record enabledX.1 enabledX.2 farTriggers (by decide)).2.1⟩

/-! ## Start -/

theorem Start_eq (d : Doctor) (w : World) (now : Time) (cpuOk : Bool) :
    Start d w now cpuOk
      = ({ d with startTime := now, writes := wrapInt (d.writes + 1),
                  cpuprofFile := if cpuOk then d.cpuprofFile else "" },
         w ++ [Event.loggerSetLevel Level.info,
               Event.log Level.info "Calling a Doctor..." [],
               Event.goProcessSignal,
               Event.signalNotify,
               Event.log Level.debug "Starting CPUProfile..." [],
               Event.osCreate (d.cpuprofFile ++ "_" ++ Itoa (wrapInt (d.writes + 1))) cpuOk,
               if cpuOk then
                 Event.pprofStartCPUProfile
                   (d.cpuprofFile ++ "_" ++ Itoa (wrapInt (d.writes + 1)))
               else Event.log Level.error "Error occured %v" [Arg.err]]) := by
  simp [Start, startCPUProfile_eq, Infof]

set_option maxRecDepth 20000 in
/-- C3, as stated, fails: with `-doctor -cpu x`, every file creation succeeding and two
signals three seconds apart, `Start` creates `x_1`, the first signal `x_2` and the second
`x_3`, and `writes` ends at 3, not 2. -/
theorem scenario_two_triggers_counterexample :
    enabledX.1.enable = true
    ∧ enabledX.1.cpuprofFile = "x"
    ∧ arrivalsSpaced farTriggers = true
    ∧ clockOrdered farTriggers = true
    ∧ spacedFromRecord enabledX.1.lastSignal farTriggers = true
    ∧ (createCalls (processSignal enabledX.1 enabledX.2 farTriggers).world).all
        (fun c => c.2) = true
    ∧ (processSignal enabledX.1 enabledX.2 farTriggers).status = none
    ∧ cpuFiles (processSignal enabledX.1 enabledX.2 farTriggers).world = ["x_1", "x_2", "x_3"]
    ∧ (processSignal enabledX.1 enabledX.2 farTriggers).doctor.writes = 3
    ∧ (processSignal enabledX.1 enabledX.2 farTriggers).doctor.writes ≠ 2 := by
  decide

/-- C3, amended: for a controller configured with `enable = true` and CPU profile path
`x` whose CPU profile files are all created, after `Start` and two signals, the second
checked more than one second after the time the first stored in `lastSignal`, the process
has not exited, the CPU profile files created are `x_1`, `x_2` and `x_3`, and `writes`
equals 3. -/
theorem scenario_two_triggers (f : Flags) (w : World) (now : Time) (t1 t2 : Trigger)
    (hen : f.doctor = true) (hcpu : f.cpu = "x")
    (h1 : t1.cpuOk = true) (h2 : t2.cpuOk = true)
    (hfar : t1.nowRecord + 1000000000 < t2.nowCheck) :
    (processSignal (StartWithFlags f w now true).1 (StartWithFlags f w now true).2
        [t1, t2]).status = none
    ∧ cpuFiles (processSignal (StartWithFlags f w now true).1 (StartWithFlags f w now true).2
        [t1, t2]).world = cpuFiles w ++ ["x_1", "x_2", "x_3"]
    ∧ (processSignal (StartWithFlags f w now true).1 (StartWithFlags f w now true).2
        [t1, t2]).doctor.writes = 3 := by
  have hs : StartWithFlags f w now true
      = ({ startTime := now, writes := 1, memprofFile := f.mem, cpuprofFile := "x",
           enable := true, showGCStats := f.statsgc, showMemStats := f.statsmem,
           showGoroutineStats := f.statsgoroutine },
         w ++ [Event.loggerSetLevel Level.info,
               Event.log Level.info "Calling a Doctor..." [],
               Event.goProcessSignal,
               Event.signalNotify,
               Event.log Level.debug "Starting CPUProfile..." [],
               Event.osCreate "x_1" true,
               Event.pprofStartCPUProfile "x_1"]) := by
    have e1 : Itoa 1 = "1" := by decide
    have v1 : wrapInt 1 = 1 := by decide
    simp [StartWithFlags, hen, hcpu, Start_eq, e1, v1]
  have hnot : ¬ Sub t2.nowCheck t1.nowRecord < 1000000000 := by
    rw [Sub_lt_second_iff]
    intro hc
    have a : (t1.nowRecord : Int) + 1000000000 < t2.nowCheck := hfar
    have b : (t2.nowCheck : Int) - t1.nowRecord < 1000000000 := hc
    linarith
  have e2 : Itoa 2 = "2" := by decide
  have e3 : Itoa 3 = "3" := by decide
  have v2 : wrapInt 2 = 2 := by decide
  have v3 : wrapInt 3 = 3 := by decide
  have s2 : "x" ++ "_" ++ "2" = "x_2" := by decide
  have s3 : "x" ++ "_" ++ "3" = "x_3" := by decide
  rw [hs]
  simp only [processSignal, Debugf, processSignalLoop]
  rw [processSignalBody_far _ _ t1 (by intro last hl; cases hl)]
  simp only [processSignalLoop]
  rw [processSignalBody_far _ _ t2 (by
    intro last hl
    simp only [Option.some.injEq] at hl
    rw [← hl]
    exact hnot)]
  simp only [Outcome.status, Outcome.world, Outcome.doctor, Update_fst, cpuFiles_Update,
    cpuFiles_log, cpuFiles_append, h1, h2]
  refine ⟨trivial, ?_, ?_⟩
  · simp [cpuFiles, e2, e3, s2, s3, v2, v3]
  · simp [v2, v3]

/-- C3 amended, at the run with two signals three seconds apart. -/
theorem scenario_two_triggers_witness :
    cpuFiles (processSignal
        (StartWithFlags { doctor := true, cpu := "x" } [] 0 true).1
        (StartWithFlags { doctor := true, cpu := "x" } [] 0 true).2
        [ { arrival := 2000000000, nowLog := 2000000001, nowCheck := 2000000002,
            nowRecord := 2000000500, memOk := true, cpuOk := true },
          { arrival := 5000000000, nowLog := 5000000001, nowCheck := 5000000002,
            nowRecord := 5000000500, memOk := true, cpuOk := true } ]).world
      = cpuFiles [] ++ ["x_1", "x_2", "x_3"] :=
  (scenario_two_triggers { doctor := true, cpu := "x" } [] 0
    { arrival := 2000000000, nowLog := 2000000001, nowCheck := 2000000002,
      nowRecord := 2000000500, memOk := true, cpuOk := true }
    { arrival := 5000000000, nowLog := 5000000001, nowCheck := 5000000002,
      nowRecord := 5000000500, memOk := true, cpuOk := true }
    rfl rfl rfl rfl (by decide)).2.1

/-! ## Sequences of rotations -/

theorem wrapInt_succ {x : Int} (hlo : minInt ≤ x) (hhi : x < maxInt) :
    wrapInt (x + 1) = x + 1 := by
  apply wrapInt_of_range
  · unfold minInt at *; omega
  · unfold maxInt at *; omega

/-- One call whose CPU profile file is created, below the largest `int`. -/
theorem Call_apply_ok (d : Doctor) (w : World) (c : Call) (hb : d.cpuprofFile ≠ "")
    (hok : c.cpuOk = true) (hlo : minInt ≤ d.writes) (hhi : d.writes < maxInt) :
    (c.apply d w).1.writes = d.writes + 1
    ∧ (c.apply d w).1.cpuprofFile = d.cpuprofFile
    ∧ (c.apply d w).1.memprofFile = d.memprofFile
    ∧ cpuFiles (c.apply d w).2
        = cpuFiles w ++ [d.cpuprofFile ++ "_" ++ Itoa (d.writes + 1)]
    ∧ startCPUProfileCalls (c.apply d w).2 = startCPUProfileCalls w + 1
    ∧ ∀ n, d.memprofFile ≠ n →
        ((createCalls (c.apply d w).2).map Prod.fst).count n
          = ((createCalls w).map Prod.fst).count n
            + [d.cpuprofFile ++ "_" ++ Itoa (d.writes + 1)].count n := by
  have hw := wrapInt_succ hlo hhi
  cases c with
  | start now ok =>
    simp only [Call.cpuOk] at hok
    subst hok
    refine ⟨?_, ?_, ?_, ?_, ?_, ?_⟩
    · simp [Call.apply, Start_eq, hw]
    · simp [Call.apply, Start_eq]
    · simp [Call.apply, Start_eq]
    · simp [Call.apply, Start_eq, cpuFiles, hw]
    · simp [Call.apply, Start_eq, startCPUProfileCalls]
    · intro n _
      simp [Call.apply, Start_eq, createCalls, hw, List.count_append]
  | update memOk ok =>
    simp only [Call.cpuOk] at hok
    subst hok
    refine ⟨?_, ?_, ?_, ?_, ?_, ?_⟩
    · simp [Call.apply, Update_fst, hb, hw]
    · simp [Call.apply, Update_fst, hb]
    · simp [Call.apply, Update_fst, hb]
    · simp [Call.apply, cpuFiles_Update, hb, hw]
    · simp [Call.apply, startCPUProfileCalls_Update, hb]
    · intro n hn
      simp only [Call.apply, createCalls_Update, hb, if_false, hw, List.map_append,
        List.count_append]
      by_cases hm : d.memprofFile = ""
      · simp [hm]
      · simp [hm, List.count_cons, hn]

theorem run_append (l1 : List Call) :
    ∀ (d : Doctor) (w : World) (l2 : List Call),
      run d w (l1 ++ l2) = run (run d w l1).1 (run d w l1).2 l2 := by
  induction l1 with
  | nil => intro d w l2; rfl
  | cons c l1 ih => intro d w l2; simp only [List.cons_append, run]; exact ih _ _ l2

theorem run_rotations (cs : List Call) :
    ∀ (d : Doctor) (w : World), d.cpuprofFile ≠ "" → (∀ c ∈ cs, c.cpuOk = true) →
      minInt ≤ d.writes → d.writes + (cs.length : Int) ≤ maxInt →
      (run d w cs).1.writes = d.writes + cs.length
      ∧ (run d w cs).1.cpuprofFile = d.cpuprofFile
      ∧ cpuFiles (run d w cs).2
          = cpuFiles w ++ (List.range cs.length).map
              (fun (i : Nat) => d.cpuprofFile ++ "_" ++ Itoa (d.writes + (i : Int) + 1))
      ∧ startCPUProfileCalls (run d w cs).2 = startCPUProfileCalls w + cs.length
      ∧ ∀ n, d.memprofFile ≠ n →
          ((createCalls (run d w cs).2).map Prod.fst).count n
            = ((createCalls w).map Prod.fst).count n
              + ((List.range cs.length).map
                  (fun (i : Nat) => d.cpuprofFile ++ "_" ++ Itoa (d.writes + (i : Int) + 1))).count n := by
  induction cs with
  | nil => intro d w _ _ _ _; simp [run]
  | cons c cs ih =>
    intro d w hb hok hlo hroom
    have hlen : ((c :: cs).length : Int) = (cs.length : Int) + 1 := by
      rw [List.length_cons]; push_cast; ring
    rw [hlen] at hroom
    have hhi : d.writes < maxInt := by omega
    have hc := Call_apply_ok d w c hb (hok c (List.mem_cons_self _ _)) hlo hhi
    have hb2 : (c.apply d w).1.cpuprofFile ≠ "" := by rw [hc.2.1]; exact hb
    have := ih (c.apply d w).1 (c.apply d w).2 hb2
      (fun x hx => hok x (List.mem_cons_of_mem _ hx))
      (by rw [hc.1]; omega) (by rw [hc.1]; omega)
    have hnames : (List.range (c :: cs).length).map
          (fun (i : Nat) => d.cpuprofFile ++ "_" ++ Itoa (d.writes + (i : Int) + 1))
        = [d.cpuprofFile ++ "_" ++ Itoa (d.writes + 1)]
          ++ (List.range cs.length).map
              (fun (i : Nat) => d.cpuprofFile ++ "_" ++ Itoa (d.writes + 1 + (i : Int) + 1)) := by
      rw [List.length_cons, List.range_succ_eq_map, List.map_cons, List.map_map]
      simp only [Nat.cast_zero, add_zero, List.singleton_append]
      congr 1
      apply List.map_congr_left
      intro i _
      have e : d.writes + 1 + (i : Int) + 1 = d.writes + ((i.succ : Nat) : Int) + 1 := by
        push_cast; ring
      simp only [Function.comp, e]
    rw [run, hnames]
    refine ⟨?_, ?_, ?_, ?_, ?_⟩
    · rw [this.1, hc.1, hlen]; ring
    · rw [this.2.1, hc.2.1]
    · rw [this.2.2.1, hc.2.2.2.1, hc.1, hc.2.1, List.append_assoc]
    · rw [this.2.2.2.1, hc.2.2.2.2.1, List.length_cons]; ring
    · intro n hn
      rw [this.2.2.2.2 n (by rw [hc.2.2.1]; exact hn), hc.2.2.2.2.2 n hn, hc.1, hc.2.1,
        List.count_append]
      ring

theorem profileNames_nodup (base : String) (k : Nat) : (profileNames base k).Nodup := by
  unfold profileNames
  apply List.Nodup.map _ (List.nodup_range k)
  intro i j h
  have := profileName_injective base _ _ h
  omega

/-- The rotation that follows `maxInt` successful ones wraps the counter around. -/
theorem run_overflow (cs : List Call) (d : Doctor) (w : World) (memOk : Bool)
    (hfresh : d.writes = 0) (hb : d.cpuprofFile ≠ "") (hok : ∀ c ∈ cs, c.cpuOk = true)
    (hlen : (cs.length : Int) = maxInt) :
    (run d w (cs ++ [Call.update memOk true])).1.writes = minInt
    ∧ (cpuFiles (run d w (cs ++ [Call.update memOk true])).2).getLast?
        = some (d.cpuprofFile ++ "_" ++ Itoa minInt) := by
  have h := run_rotations cs d w hb hok (by rw [hfresh]; decide) (by rw [hfresh, hlen]; simp)
  have hw : (run d w cs).1.writes = maxInt := by rw [h.1, hfresh, hlen]; simp
  have hb2 : (run d w cs).1.cpuprofFile ≠ "" := by rw [h.2.1]; exact hb
  have hwrap : wrapInt (maxInt + 1) = minInt := by decide
  rw [run_append]
  simp only [run, Call.apply]
  constructor
  · rw [Update_fst]
    simp [hb2, hw, hwrap]
  · rw [cpuFiles_Update]
    have hcond : (run d w cs).1.cpuprofFile ≠ "" ∧ true = true := ⟨hb2, rfl⟩
    rw [if_pos hcond, hw, hwrap, h.2.1, List.getLast?_concat]

/-- C4, as stated, fails twice.  With heap profile path `x_2`, three rotations create the
CPU profile files `x_1`, `x_2`, `x_3`, but `os.Create` is called on `x_2` four times, so
the CPU profile file `x_2` is overwritten.  And after K = 2^63 successful rotations from
`writes = 0` the counter has wrapped around: the last file is `x_-9223372036854775808`,
which is none of `x_1`, ..., `x_K`. -/
theorem rotation_names_counterexample :
    cpuFiles (run { cpuprofFile := "x", memprofFile := "x_2" } []
        [Call.update true true, Call.update true true, Call.update true true]).2
      = ["x_1", "x_2", "x_3"]
    ∧ ((createCalls (run { cpuprofFile := "x", memprofFile := "x_2" } []
        [Call.update true true, Call.update true true, Call.update true true]).2).map
          Prod.fst).count "x_2" = 4
    ∧ (List.replicate 9223372036854775807 (Call.update false true)
        ++ [Call.update false true]).length = 9223372036854775808
    ∧ (cpuFiles (run { cpuprofFile := "x" } []
        (List.replicate 9223372036854775807 (Call.update false true)
          ++ [Call.update false true])).2).getLast? = some "x_-9223372036854775808"
    ∧ "x_-9223372036854775808" ∉ profileNames "x" 9223372036854775808
    ∧ (run { cpuprofFile := "x" } []
        (List.replicate 9223372036854775807 (Call.update false true)
          ++ [Call.update false true])).1.writes = -9223372036854775808 := by
  have hlast : "x" ++ "_" ++ Itoa minInt = "x_-9223372036854775808" := by decide
  have hover := run_overflow (List.replicate 9223372036854775807 (Call.update false true))
    { cpuprofFile := "x" } [] false rfl (by decide)
    (fun c hc => by rw [List.eq_of_mem_replicate hc]; rfl)
    (by rw [List.length_replicate]; rfl)
  refine ⟨by decide, by decide, ?_, ?_, ?_, ?_⟩
  · rw [List.length_append, List.length_replicate]
    rfl
  · rw [hover.2]
    exact congrArg some hlast
  · intro hmem
    unfold profileNames at hmem
    rw [List.mem_map] at hmem
    obtain ⟨i, _, hi⟩ := hmem
    have := profileName_injective "x" _ _ (hi.trans hlast.symm)
    unfold minInt at this
    omega
  · rw [hover.1]
    rfl

/-- C4, amended: for every K up to the largest `int`, 2^63 - 1, and every non-empty base
path, starting from a controller with `writes = 0`, after K calls of `Start` or `Update`
whose CPU profile file is created each time, the CPU profile files created are `base_1`,
..., `base_K` in this order, these are K names, no two of them equal, `startCPUProfile`
ran K times and `writes` is K; and when the heap profile path is none of these names,
`os.Create` is called exactly once on each of them in the whole run, so none is
overwritten. -/
theorem rotation_names_distinct (d : Doctor) (w : World) (cs : List Call)
    (hfresh : d.writes = 0) (hbase : d.cpuprofFile ≠ "")
    (hok : ∀ c ∈ cs, c.cpuOk = true) (hroom : (cs.length : Int) ≤ maxInt) :
    cpuFiles (run d w cs).2 = cpuFiles w ++ profileNames d.cpuprofFile cs.length
    ∧ (profileNames d.cpuprofFile cs.length).length = cs.length
    ∧ (profileNames d.cpuprofFile cs.length).Nodup
    ∧ (∀ i, i < cs.length →
        (profileNames d.cpuprofFile cs.length)[i]?
          = some (d.cpuprofFile ++ "_" ++ Itoa ((i : Int) + 1)))
    ∧ startCPUProfileCalls (run d w cs).2 = startCPUProfileCalls w + cs.length
    ∧ (run d w cs).1.writes = cs.length
    ∧ (d.memprofFile ∉ profileNames d.cpuprofFile cs.length →
        ∀ n ∈ profileNames d.cpuprofFile cs.length,
          ((createCalls (run d w cs).2).map Prod.fst).count n
            = ((createCalls w).map Prod.fst).count n + 1) := by
  have h := run_rotations cs d w hbase hok (by rw [hfresh]; decide)
    (by rw [hfresh]; simpa using hroom)
  have hnames : (List.range cs.length).map
        (fun (i : Nat) => d.cpuprofFile ++ "_" ++ Itoa (d.writes + (i : Int) + 1))
      = profileNames d.cpuprofFile cs.length := by
    rw [hfresh]
    simp [profileNames]
  rw [hnames] at h
  refine ⟨h.2.2.1, ?_, profileNames_nodup _ _, ?_, h.2.2.2.1, ?_, ?_⟩
  · simp [profileNames]
  · intro i hi
    simp [profileNames, hi]
  · rw [h.1, hfresh]; simp
  · intro hmem n hn
    rw [h.2.2.2.2 n (fun e => hmem (e ▸ hn)),
      List.count_eq_one_of_mem (profileNames_nodup _ _) hn]

/-- C4 amended, at `Start` followed by two calls of `Update`. -/
theorem rotation_names_distinct_witness :
    cpuFiles (run { cpuprofFile := "x" } []
        [Call.start 0 true, Call.update true true, Call.update false true]).2
      = cpuFiles [] ++ profileNames "x" 3
    ∧ profileNames "x" 3 = ["x_1", "x_2", "x_3"] :=
  ⟨(rotation_names_distinct { cpuprofFile := "x" } []
      [Call.start 0 true, Call.update true true, Call.update false true]
      rfl (by decide) (by decide) (by decide)).1, by decide⟩

/-! ## Sequences of Update calls -/

theorem updates_append (l1 : List (Bool × Bool)) :
    ∀ (d : Doctor) (w : World) (l2 : List (Bool × Bool)),
      updates d w (l1 ++ l2) = updates (updates d w l1).1 (updates d w l1).2 l2 := by
  induction l1 with
  | nil => intro d w l2; rfl
  | cons a l1 ih => intro d w l2; simp only [List.cons_append, updates]; exact ih _ _ l2

/-- While the CPU profile files are created, the path stays and no error is logged. -/
theorem updates_ok (l : List (Bool × Bool)) :
    ∀ (d : Doctor) (w : World), (∀ a ∈ l, a.2 = true) →
      (updates d w l).1.cpuprofFile = d.cpuprofFile
      ∧ cpuErrors (updates d w l).2 = cpuErrors w := by
  induction l with
  | nil => intro d w _; simp [updates]
  | cons a l ih =>
    intro d w h
    have ha : a.2 = true := h a (List.mem_cons_self _ _)
    have := ih (Update d w a.1 a.2).1 (Update d w a.1 a.2).2
      (fun x hx => h x (List.mem_cons_of_mem _ hx))
    rw [updates, this.1, this.2, Update_fst, cpuErrors_Update, ha]
    by_cases hb : d.cpuprofFile = "" <;> simp [hb]

/-- With an empty CPU profile path, `Update` leaves the controller alone and only the heap
profile is handled. -/
theorem updates_disabled (l : List (Bool × Bool)) :
    ∀ (d : Doctor) (w : World), d.cpuprofFile = "" →
      (updates d w l).1 = d
      ∧ cpuFiles (updates d w l).2 = cpuFiles w
      ∧ startCPUProfileCalls (updates d w l).2 = startCPUProfileCalls w
      ∧ cpuErrors (updates d w l).2 = cpuErrors w
      ∧ createCalls (updates d w l).2
          = createCalls w
            ++ (if d.memprofFile = "" then [] else l.map (fun a => (d.memprofFile, a.1))) := by
  induction l with
  | nil => intro d w _; simp [updates]
  | cons a l ih =>
    intro d w hb
    have h1 : (Update d w a.1 a.2).1 = d := by rw [Update_fst]; simp [hb]
    have := ih (Update d w a.1 a.2).1 (Update d w a.1 a.2).2 (by rw [h1]; exact hb)
    rw [updates, this.1, this.2.1, this.2.2.1, this.2.2.2.1, this.2.2.2.2, h1,
      cpuFiles_Update, startCPUProfileCalls_Update, cpuErrors_Update, createCalls_Update]
    by_cases hm : d.memprofFile = "" <;> simp [hb, hm]

/-- C5: for every sequence of `Update` calls on a controller with a CPU profile path, if the
creation of the CPU profile file fails for the first time at some call (after any number of
rotations that succeeded), then that call clears `cpuprofFile`; whatever the file system
answers afterwards, the later calls create no CPU profile file, do not run
`startCPUProfile`, call `os.Create` for the heap profile only, and leave `writes` and the
empty `cpuprofFile` alone; and the CPU profile error is logged exactly once, by the failing
call. -/
theorem cpu_failure_disables_rotation (d : Doctor) (w : World)
    (before after : List (Bool × Bool)) (memOk : Bool)
    (hbase : d.cpuprofFile ≠ "") (hok : ∀ a ∈ before, a.2 = true) :
    (updates d w (before ++ [(memOk, false)])).1.cpuprofFile = ""
    ∧ cpuFiles (updates d w (before ++ [(memOk, false)])).2
        = cpuFiles (updates d w before).2
    ∧ (updates d w (before ++ [(memOk, false)] ++ after)).1
        = (updates d w (before ++ [(memOk, false)])).1
    ∧ cpuFiles (updates d w (before ++ [(memOk, false)] ++ after)).2
        = cpuFiles (updates d w (before ++ [(memOk, false)])).2
    ∧ startCPUProfileCalls (updates d w (before ++ [(memOk, false)] ++ after)).2
        = startCPUProfileCalls (updates d w (before ++ [(memOk, false)])).2
    ∧ createCalls (updates d w (before ++ [(memOk, false)] ++ after)).2
        = createCalls (updates d w (before ++ [(memOk, false)])).2
          ++ (if d.memprofFile = "" then []
              else after.map (fun a => (d.memprofFile, a.1)))
    ∧ cpuErrors (updates d w before).2 = cpuErrors w
    ∧ cpuErrors (updates d w (before ++ [(memOk, false)])).2 = cpuErrors w + 1
    ∧ cpuErrors (updates d w (before ++ [(memOk, false)] ++ after)).2 = cpuErrors w + 1 := by
  have hpre := updates_ok before d w hok
  have hb1 : (updates d w before).1.cpuprofFile ≠ "" := by rw [hpre.1]; exact hbase
  have hfail : updates d w (before ++ [(memOk, false)])
      = Update (updates d w before).1 (updates d w before).2 memOk false := by
    rw [updates_append]; rfl
  have hcleared : (updates d w (before ++ [(memOk, false)])).1.cpuprofFile = "" := by
    rw [hfail, Update_fst]; simp [hb1]
  have hmem : (updates d w (before ++ [(memOk, false)])).1.memprofFile = d.memprofFile := by
    rw [hfail, Update_fst]
    simp only [hb1, if_false]
    clear hfail hcleared hb1 hpre
    induction before generalizing d w with
    | nil => rfl
    | cons a l ih =>
      rw [updates]
      rw [ih (Update d w a.1 a.2).1 (Update d w a.1 a.2).2
        (by rw [Update_fst]; simp [hbase, hok a (List.mem_cons_self _ _)])
        (fun x hx => hok x (List.mem_cons_of_mem _ hx))]
      rw [Update_fst]
      by_cases hc : d.cpuprofFile = "" <;> simp [hc]
  have hpost := updates_disabled after _ (updates d w (before ++ [(memOk, false)])).2 hcleared
  have herr : cpuErrors (updates d w (before ++ [(memOk, false)])).2 = cpuErrors w + 1 := by
    rw [hfail, cpuErrors_Update, hpre.2]; simp [hb1]
  refine ⟨hcleared, ?_, ?_, ?_, ?_, ?_, hpre.2, herr, ?_⟩
  · rw [hfail, cpuFiles_Update]; simp
  · rw [updates_append]; exact hpost.1
  · rw [updates_append]; exact hpost.2.1
  · rw [updates_append]; exact hpost.2.2.1
  · rw [updates_append, hpost.2.2.2.2, hmem]
  · rw [updates_append, hpost.2.2.2.1, herr]

/-- C5, at a failure in the third call, followed by two calls the file system would
serve. -/
theorem cpu_failure_disables_rotation_witness :
    cpuFiles (updates { cpuprofFile := "x", memprofFile := "m" } []
        ([(true, true), (true, true)] ++ [(true, false)] ++ [(true, true), (false, true)])).2
      = cpuFiles (updates { cpuprofFile := "x", memprofFile := "m" } []
        ([(true, true), (true, true)] ++ [(true, false)])).2
    ∧ cpuFiles (updates { cpuprofFile := "x", memprofFile := "m" } []
        ([(true, true), (true, true)] ++ [(true, false)])).2 = ["x_1", "x_2"] :=
  ⟨(cpu_failure_disables_rotation { cpuprofFile := "x", memprofFile := "m" } []
      [(true, true), (true, true)] [(true, true), (false, true)] true
      (by decide) (by decide)).2.2.2.1, by decide⟩

/-- C6: for every controller state with a non-empty CPU profile path, one `Update` leaves
the same controller, creates the same CPU profile file, runs `startCPUProfile` as often and
logs as many CPU profile errors whether the heap profile file is created or not: `writes`
grows by one, `memprofFile` stays, `cpuprofFile` stays unless the CPU profile file itself
fails; the two traces differ only in the heap block, where the failure has the failed
`os.Create` and one error line in place of the created file, the heap profile and the info
line. -/
theorem Update_heap_failure_isolated (d : Doctor) (w : World) (cpuOk : Bool)
    (hbase : d.cpuprofFile ≠ "") :
    (Update d w false cpuOk).1 = (Update d w true cpuOk).1
    ∧ (Update d w false cpuOk).1.writes = wrapInt (d.writes + 1)
    ∧ (Update d w false cpuOk).1.memprofFile = d.memprofFile
    ∧ (Update d w false cpuOk).1.cpuprofFile = (if cpuOk then d.cpuprofFile else "")
    ∧ cpuFiles (Update d w false cpuOk).2 = cpuFiles (Update d w true cpuOk).2
    ∧ cpuFiles (Update d w false cpuOk).2
        = cpuFiles w
          ++ (if cpuOk then [d.cpuprofFile ++ "_" ++ Itoa (wrapInt (d.writes + 1))] else [])
    ∧ startCPUProfileCalls (Update d w false cpuOk).2 = startCPUProfileCalls w + 1
    ∧ startCPUProfileCalls (Update d w true cpuOk).2 = startCPUProfileCalls w + 1
    ∧ cpuErrors (Update d w false cpuOk).2 = cpuErrors (Update d w true cpuOk).2
    ∧ ∃ pre post : World,
        (Update d w false cpuOk).2
          = pre ++ (if d.memprofFile = "" then []
                    else [Event.osCreate d.memprofFile false,
                          Event.log Level.error "couldn't write to %v"
                            [Arg.str d.memprofFile]]) ++ post
        ∧ (Update d w true cpuOk).2
          = pre ++ (if d.memprofFile = "" then []
                    else [Event.osCreate d.memprofFile true,
                          Event.pprofWriteHeapProfile d.memprofFile,
                          Event.log Level.info ">> writing heap profile to %v"
                            [Arg.str d.memprofFile]]) ++ post := by
  refine ⟨?_, ?_, ?_, ?_, ?_, ?_, ?_, ?_, ?_, ?_⟩
  · rw [Update_fst, Update_fst]
  · rw [Update_fst]; simp [hbase]
  · rw [Update_fst]; simp [hbase]
  · rw [Update_fst]; simp [hbase]
  · rw [cpuFiles_Update, cpuFiles_Update]
  · rw [cpuFiles_Update]; simp [hbase]
  · rw [startCPUProfileCalls_Update]; simp [hbase]
  · rw [startCPUProfileCalls_Update]; simp [hbase]
  · rw [cpuErrors_Update, cpuErrors_Update]
  · refine ⟨w ++ [Event.enterUpdate]
        ++ writeMemStats d (writeGoroutineStats d (writeGCStats d [])),
      [Event.log Level.info ">> writing cpu samples to %v" [Arg.str d.cpuprofFile],
       Event.pprofStopCPUProfile,
       Event.log Level.debug "Starting CPUProfile..." [],
       Event.osCreate (d.cpuprofFile ++ "_" ++ Itoa (wrapInt (d.writes + 1))) cpuOk,
       if cpuOk then
         Event.pprofStartCPUProfile (d.cpuprofFile ++ "_" ++ Itoa (wrapInt (d.writes + 1)))
       else Event.log Level.error "Error occured %v" [Arg.err]], ?_, ?_⟩
    · rw [Update_snd]
      by_cases hm : d.memprofFile = "" <;> simp [hm, hbase]
    · rw [Update_snd]
      by_cases hm : d.memprofFile = "" <;> simp [hm, hbase]

/-- C6, at a controller with both paths set whose CPU profile file is created. -/
theorem Update_heap_failure_isolated_witness :
    (Update { cpuprofFile := "x", memprofFile := "m", writes := 4 } [] false true).1
      = (Update { cpuprofFile := "x", memprofFile := "m", writes := 4 } [] true true).1
    ∧ cpuFiles (Update { cpuprofFile := "x", memprofFile := "m", writes := 4 } []
        false true).2 = ["x_5"] :=
  ⟨(Update_heap_failure_isolated { cpuprofFile := "x", memprofFile := "m", writes := 4 } []
      true (by decide)).1, by decide⟩

/-- The events of the profile handling are no stats events. -/
theorem profile_events_not_stats (p : String) (ok : Bool) :
    isStatsEvent Event.enterUpdate = false
    ∧ isStatsEvent (Event.osCreate p ok) = false
    ∧ isStatsEvent (Event.pprofWriteHeapProfile p) = false
    ∧ isStatsEvent (Event.pprofStartCPUProfile p) = false
    ∧ isStatsEvent Event.pprofStopCPUProfile = false
    ∧ isStatsEvent (Event.log Level.info ">> writing heap profile to %v" [Arg.str p]) = false
    ∧ isStatsEvent (Event.log Level.error "couldn't write to %v" [Arg.str p]) = false
    ∧ isStatsEvent (Event.log Level.info ">> writing cpu samples to %v" [Arg.str p]) = false
    ∧ isStatsEvent (Event.log Level.debug "Starting CPUProfile..." []) = false
    ∧ isStatsEvent (Event.log Level.error "Error occured %v" [Arg.err]) = false := by
  simp [isStatsEvent, statsEvents, writeGCStats, writeMemStats, writeGoroutineStats,
    allStats, Infof]

/-- The stats events are exactly what the filter of the profile handling drops. -/
theorem stats_filtered (d : Doctor) :
    (writeMemStats d (writeGoroutineStats d (writeGCStats d []))).filter
      (fun e => !isStatsEvent e) = [] := by
  rw [List.filter_eq_nil_iff]
  intro e he
  simp [stats_isStatsEvent d e he]

/-- C7: for every controller state with the three stats flags false, `Update` emits no GC,
goroutine or memory stats line (and reads no stats), and what it does emit is the trace of
the same state under any other setting of the three flags with the stats events removed:
the heap file, the CPU rotation, the resulting `writes`, `cpuprofFile` and `memprofFile`
are the same. -/
theorem Update_stats_disabled (d : Doctor) (w : World) (memOk cpuOk gc mem gor : Bool)
    (hgc : d.showGCStats = false) (hmem : d.showMemStats = false)
    (hgor : d.showGoroutineStats = false) :
    (∀ e ∈ (Update d w memOk cpuOk).2.drop w.length, isStatsEvent e = false)
    ∧ (Update d w memOk cpuOk).2.drop w.length
        = ((Update { d with showGCStats := gc, showMemStats := mem,
                                             showGoroutineStats := gor } w memOk cpuOk).2.drop w.length).filter
            (fun e => !isStatsEvent e)
    ∧ (Update { d with showGCStats := gc, showMemStats := mem,
                                        showGoroutineStats := gor } w memOk cpuOk).1.writes
        = (Update d w memOk cpuOk).1.writes
    ∧ (Update { d with showGCStats := gc, showMemStats := mem,
                                        showGoroutineStats := gor } w memOk cpuOk).1.cpuprofFile
        = (Update d w memOk cpuOk).1.cpuprofFile
    ∧ (Update { d with showGCStats := gc, showMemStats := mem,
                                        showGoroutineStats := gor } w memOk cpuOk).1.memprofFile
        = (Update d w memOk cpuOk).1.memprofFile
    ∧ cpuFiles (Update { d with showGCStats := gc, showMemStats := mem,
                                        showGoroutineStats := gor } w memOk cpuOk).2
        = cpuFiles (Update d w memOk cpuOk).2
    ∧ heapFiles (Update { d with showGCStats := gc, showMemStats := mem,
                                        showGoroutineStats := gor } w memOk cpuOk).2
        = heapFiles (Update d w memOk cpuOk).2
    ∧ createCalls (Update { d with showGCStats := gc, showMemStats := mem,
                                        showGoroutineStats := gor } w memOk cpuOk).2
        = createCalls (Update d w memOk cpuOk).2 := by
  have hoff : writeMemStats d (writeGoroutineStats d (writeGCStats d [])) = [] := by
    simp [writeGCStats, writeMemStats, writeGoroutineStats, hgc, hmem, hgor]
  have hdrop : ∀ (x : Doctor), (Update x w memOk cpuOk).2.drop w.length
      = [Event.enterUpdate] ++ writeMemStats x (writeGoroutineStats x (writeGCStats x []))
        ++ (if x.memprofFile = "" then []
            else if memOk then
              [Event.osCreate x.memprofFile true, Event.pprofWriteHeapProfile x.memprofFile,
               Event.log Level.info ">> writing heap profile to %v" [Arg.str x.memprofFile]]
            else
              [Event.osCreate x.memprofFile false,
               Event.log Level.error "couldn't write to %v" [Arg.str x.memprofFile]])
        ++ (if x.cpuprofFile = "" then []
            else
              [Event.log Level.info ">> writing cpu samples to %v" [Arg.str x.cpuprofFile],
               Event.pprofStopCPUProfile,
               Event.log Level.debug "Starting CPUProfile..." [],
               Event.osCreate (x.cpuprofFile ++ "_" ++ Itoa (wrapInt (x.writes + 1))) cpuOk,
               if cpuOk then
                 Event.pprofStartCPUProfile (x.cpuprofFile ++ "_" ++ Itoa (wrapInt (x.writes + 1)))
               else Event.log Level.error "Error occured %v" [Arg.err]]) := by
    intro x
    rw [Update_snd]
    simp only [List.append_assoc]
    rw [List.drop_left]
  have n1 := (profile_events_not_stats "" true).1
  have n2 : ∀ p ok, isStatsEvent (Event.osCreate p ok) = false :=
    fun p ok => (profile_events_not_stats p ok).2.1
  have n3 : ∀ p, isStatsEvent (Event.pprofWriteHeapProfile p) = false :=
    fun p => (profile_events_not_stats p true).2.2.1
  have n4 : ∀ p, isStatsEvent (Event.pprofStartCPUProfile p) = false :=
    fun p => (profile_events_not_stats p true).2.2.2.1
  have n5 := (profile_events_not_stats "" true).2.2.2.2.1
  have n6 : ∀ p, isStatsEvent
      (Event.log Level.info ">> writing heap profile to %v" [Arg.str p]) = false :=
    fun p => (profile_events_not_stats p true).2.2.2.2.2.1
  have n7 : ∀ p, isStatsEvent
      (Event.log Level.error "couldn't write to %v" [Arg.str p]) = false :=
    fun p => (profile_events_not_stats p true).2.2.2.2.2.2.1
  have n8 : ∀ p, isStatsEvent
      (Event.log Level.info ">> writing cpu samples to %v" [Arg.str p]) = false :=
    fun p => (profile_events_not_stats p true).2.2.2.2.2.2.2.1
  have n9 := (profile_events_not_stats "" true).2.2.2.2.2.2.2.2.1
  have n10 := (profile_events_not_stats "" true).2.2.2.2.2.2.2.2.2
  have hfilter : (Update d w memOk cpuOk).2.drop w.length
      = ((Update { d with showGCStats := gc, showMemStats := mem,
                          showGoroutineStats := gor } w memOk cpuOk).2.drop w.length).filter
          (fun e => !isStatsEvent e) := by
    rw [hdrop, hdrop, hoff]
    simp only [List.filter_append, stats_filtered]
    by_cases hm : d.memprofFile = "" <;> by_cases hc : d.cpuprofFile = "" <;>
      cases memOk <;> cases cpuOk <;> simp [hm, hc, n1, n2, n3, n4, n5, n6, n7, n8, n9, n10, List.filter]
  refine ⟨?_, hfilter, ?_, ?_, ?_, ?_, ?_, ?_⟩
  · intro e he
    rw [hfilter] at he
    have := (List.mem_filter.mp he).2
    simpa using this
  · rw [Update_fst, Update_fst]
    by_cases hc : d.cpuprofFile = "" <;> simp [hc]
  · rw [Update_fst, Update_fst]
    by_cases hc : d.cpuprofFile = "" <;> simp [hc]
  · rw [Update_fst, Update_fst]
    by_cases hc : d.cpuprofFile = "" <;> simp [hc]
  · rw [cpuFiles_Update, cpuFiles_Update]
  · rw [heapFiles_Update, heapFiles_Update]
  · rw [createCalls_Update, createCalls_Update]

/-- C7, at a controller with both paths set, against the same state with the three stats
categories switched on. -/
theorem Update_stats_disabled_witness :
    (Update { cpuprofFile := "x", memprofFile := "m" } [] true true).2.drop
        ([] : World).length
      = ((Update { cpuprofFile := "x", memprofFile := "m", showGCStats := true,
                   showMemStats := true, showGoroutineStats := true } [] true true).2.drop
          ([] : World).length).filter (fun e => !isStatsEvent e)
    ∧ cpuFiles (Update { cpuprofFile := "x", memprofFile := "m" } [] true true).2 = ["x_1"] :=
  ⟨(Update_stats_disabled { cpuprofFile := "x", memprofFile := "m" } [] true true
      true true true rfl rfl rfl).2.1, by decide⟩

/-- C8: for every flag configuration with `enable = false`, `StartWithFlags` returns a
controller that holds the parsed flag values and the zero value in every other field
(`writes = 0`, `startTime` and `lastSignal` unset), and it has no effect at all: `Start` is
not run, so no listener is started, `signal.Notify` is not called and no file is created. -/
theorem StartWithFlags_disabled (f : Flags) (w : World) (now : Time) (cpuOk : Bool)
    (hoff : f.doctor = false) :
    StartWithFlags f w now cpuOk
      = ({ startTime := 0, writes := 0, memprofFile := f.mem, cpuprofFile := f.cpu,
           lastSignal := none, logLevel := 0, enable := false,
           showGCStats := f.statsgc, showMemStats := f.statsmem,
           showGoroutineStats := f.statsgoroutine }, w)
    ∧ (StartWithFlags f w now cpuOk).2 ≠ (Start (StartWithFlags f w now cpuOk).1 w now cpuOk).2
    ∧ cpuFiles (StartWithFlags f w now cpuOk).2 = cpuFiles w
    ∧ createCalls (StartWithFlags f w now cpuOk).2 = createCalls w := by
  have h : StartWithFlags f w now cpuOk
      = ({ startTime := 0, writes := 0, memprofFile := f.mem, cpuprofFile := f.cpu,
           lastSignal := none, logLevel := 0, enable := false,
           showGCStats := f.statsgc, showMemStats := f.statsmem,
           showGoroutineStats := f.statsgoroutine }, w) := by
    simp [StartWithFlags, hoff]
  refine ⟨h, ?_, by rw [h], by rw [h]⟩
  rw [h, Start_eq]
  intro hc
  have := congrArg List.length hc
  simp at this

/-- C8, at the default flags. -/
theorem StartWithFlags_disabled_witness :
    StartWithFlags {} [] 7 true
      = ({ memprofFile := "prof.mprof", cpuprofFile := "prof.cprof", showGCStats := true,
           showMemStats := true, showGoroutineStats := true }, []) :=
  (StartWithFlags_disabled {} [] 7 true rfl).1

/-! ## The write counter -/

theorem processSignalBody_cases (d : Doctor) (w : World) (t : Trigger) :
    processSignalBody d w t
      = Outcome.exited 2 d
          (w ++ [Event.log Level.info "\n\n\nruntime: %v"
                   [Arg.duration (Sub t.nowLog d.startTime)],
                 Event.osExit 2])
    ∨ processSignalBody d w t
      = Outcome.waiting
          { (Update d (w ++ [Event.log Level.info "\n\n\nruntime: %v"
                [Arg.duration (Sub t.nowLog d.startTime)]]) t.memOk t.cpuOk).1 with
            lastSignal := some t.nowRecord }
          ((Update d (w ++ [Event.log Level.info "\n\n\nruntime: %v"
                [Arg.duration (Sub t.nowLog d.startTime)]]) t.memOk t.cpuOk).2
            ++ [Event.log Level.info "hit C-c again within a second to exit" []]) := by
  cases hl : d.lastSignal with
  | none => exact Or.inr (processSignalBody_far d w t (by intro last h; rw [hl] at h; cases h))
  | some last =>
    by_cases hn : Sub t.nowCheck last < 1000000000
    · exact Or.inl (processSignalBody_near d w t last hl hn)
    · refine Or.inr (processSignalBody_far d w t ?_)
      intro l h
      rw [hl] at h
      cases h
      exact hn

/-- What `Update` does to the counter, against the runs of `startCPUProfile`. -/
theorem Update_writes (d : Doctor) (w : World) (memOk cpuOk : Bool)
    (hlo : minInt ≤ d.writes) (hhi : d.writes < maxInt) :
    (Update d w memOk cpuOk).1.writes = (if d.cpuprofFile = "" then d.writes else d.writes + 1)
    ∧ (Update d w memOk cpuOk).1.writes + startCPUProfileCalls w
        = d.writes + startCPUProfileCalls (Update d w memOk cpuOk).2 := by
  rw [Update_fst, startCPUProfileCalls_Update]
  by_cases hc : d.cpuprofFile = "" <;> simp [hc, wrapInt_succ hlo hhi]
  ring

theorem processSignalBody_writes (d : Doctor) (w : World) (t : Trigger)
    (hlo : minInt ≤ d.writes) (hhi : d.writes < maxInt) :
    d.writes ≤ (processSignalBody d w t).doctor.writes
    ∧ (processSignalBody d w t).doctor.writes ≤ d.writes + 1
    ∧ (processSignalBody d w t).doctor.writes + startCPUProfileCalls w
        = d.writes + startCPUProfileCalls (processSignalBody d w t).world := by
  rcases processSignalBody_cases d w t with h | h
  · rw [h]
    simp [Outcome.doctor, Outcome.world, startCPUProfileCalls]
  · rw [h]
    have hu := Update_writes d (w ++ [Event.log Level.info "\n\n\nruntime: %v"
                [Arg.duration (Sub t.nowLog d.startTime)]]) t.memOk t.cpuOk hlo hhi
    simp only [Outcome.doctor, Outcome.world, startCPUProfileCalls_info] at hu ⊢
    refine ⟨?_, ?_, hu.2⟩
    · rw [hu.1]; split_ifs <;> omega
    · rw [hu.1]; split_ifs <;> omega

theorem processSignalLoop_writes (ts : List Trigger) :
    ∀ (d : Doctor) (w : World), minInt ≤ d.writes → d.writes + (ts.length : Int) ≤ maxInt →
      d.writes ≤ (processSignalLoop d w ts).doctor.writes
      ∧ (processSignalLoop d w ts).doctor.writes + startCPUProfileCalls w
          = d.writes + startCPUProfileCalls (processSignalLoop d w ts).world := by
  induction ts with
  | nil => intro d w _ _; simp [processSignalLoop, Outcome.doctor, Outcome.world]
  | cons t ts ih =>
    intro d w hlo hroom
    have hlen : ((t :: ts).length : Int) = (ts.length : Int) + 1 := by
      rw [List.length_cons]; push_cast; ring
    rw [hlen] at hroom
    have hb := processSignalBody_writes d w t hlo (by omega)
    rw [processSignalLoop]
    cases hr : processSignalBody d w t with
    | exited s d1 w1 =>
      rw [hr] at hb
      exact ⟨hb.1, hb.2.2⟩
    | waiting d1 w1 =>
      rw [hr] at hb
      simp only [Outcome.doctor, Outcome.world] at hb
      have := ih d1 w1 (by omega) (by omega)
      simp only
      constructor
      · omega
      · omega

theorem Call_apply_writes (d : Doctor) (w : World) (c : Call)
    (hlo : minInt ≤ d.writes) (hhi : d.writes < maxInt) :
    d.writes ≤ (c.apply d w).1.writes
    ∧ (c.apply d w).1.writes ≤ d.writes + 1
    ∧ (c.apply d w).1.writes + startCPUProfileCalls w
        = d.writes + startCPUProfileCalls (c.apply d w).2 := by
  cases c with
  | start now ok =>
    cases ok <;>
      simp [Call.apply, Start_eq, startCPUProfileCalls, wrapInt_succ hlo hhi] <;> ring
  | update memOk ok =>
    have := Update_writes d w memOk ok hlo hhi
    simp only [Call.apply]
    refine ⟨?_, ?_, this.2⟩
    · rw [this.1]; split_ifs <;> omega
    · rw [this.1]; split_ifs <;> omega

theorem run_writes (cs : List Call) :
    ∀ (d : Doctor) (w : World), minInt ≤ d.writes → d.writes + (cs.length : Int) ≤ maxInt →
      d.writes ≤ (run d w cs).1.writes
      ∧ (run d w cs).1.writes + startCPUProfileCalls w
          = d.writes + startCPUProfileCalls (run d w cs).2 := by
  induction cs with
  | nil => intro d w _ _; simp [run]
  | cons c cs ih =>
    intro d w hlo hroom
    have hlen : ((c :: cs).length : Int) = (cs.length : Int) + 1 := by
      rw [List.length_cons]; push_cast; ring
    rw [hlen] at hroom
    have h1 := Call_apply_writes d w c hlo (by omega)
    have h2 := ih (c.apply d w).1 (c.apply d w).2 (by omega) (by omega)
    rw [run]
    constructor
    · omega
    · omega

/-- C9, as stated, fails at the largest `int`: with `writes = 9223372036854775807`,
`startCPUProfile` (and so `Start` and `Update`) leaves `writes = -9223372036854775808`,
which is lower than before and not one more. -/
theorem writes_wraps_counterexample :
    (startCPUProfile { writes := 9223372036854775807, cpuprofFile := "x" } [] true).1.writes
      = -9223372036854775808
    ∧ (Update { writes := 9223372036854775807, cpuprofFile := "x" } [] true true).1.writes
      = -9223372036854775808
    ∧ (Start { writes := 9223372036854775807, cpuprofFile := "x" } [] 0 true).1.writes
      = -9223372036854775808
    ∧ ¬ ((9223372036854775807 : Int)
        ≤ (Update { writes := 9223372036854775807, cpuprofFile := "x" } [] true true).1.writes)
    ∧ startCPUProfileCalls
        (startCPUProfile { writes := 9223372036854775807, cpuprofFile := "x" } [] true).2 = 1
    ∧ cpuFiles (Update { writes := 9223372036854775807, cpuprofFile := "x" } [] true true).2
      = ["x_-9223372036854775808"] := by
  decide

/-- C9, amended: `writes` only increases while it is below the largest `int`.  For every
controller state whose `writes` is an `int` below 2^63 - 1, `startCPUProfile` adds exactly
one to `writes`, also when the file creation fails; so does `Start`; `Update` adds one when
`cpuprofFile` is non-empty and leaves `writes` unchanged when it is empty; the loop body of
the listener never lowers it; and over every sequence of `Start` and `Update` calls and
every run of the listener that is no longer than the room left below 2^63 - 1, `writes`
never ends lower and grows by exactly the number of runs of `startCPUProfile`. -/
theorem writes_only_increases (d : Doctor) (w : World) (now : Time) (memOk cpuOk : Bool)
    (t : Trigger) (cs : List Call) (ts : List Trigger)
    (hlo : minInt ≤ d.writes) (hhi : d.writes < maxInt) :
    (startCPUProfile d w cpuOk).1.writes = d.writes + 1
    ∧ startCPUProfileCalls (startCPUProfile d w cpuOk).2 = startCPUProfileCalls w + 1
    ∧ (Start d w now cpuOk).1.writes = d.writes + 1
    ∧ (Update d w memOk cpuOk).1.writes
        = (if d.cpuprofFile = "" then d.writes else d.writes + 1)
    ∧ d.writes ≤ (Update d w memOk cpuOk).1.writes
    ∧ d.writes ≤ (processSignalBody d w t).doctor.writes
    ∧ (d.writes + (cs.length : Int) ≤ maxInt →
        d.writes ≤ (run d w cs).1.writes
        ∧ (run d w cs).1.writes + startCPUProfileCalls w
            = d.writes + startCPUProfileCalls (run d w cs).2)
    ∧ (d.writes + (ts.length : Int) ≤ maxInt →
        d.writes ≤ (processSignal d w ts).doctor.writes
        ∧ (processSignal d w ts).doctor.writes + startCPUProfileCalls w
            = d.writes + startCPUProfileCalls (processSignal d w ts).world) := by
  have hu := Update_writes d w memOk cpuOk hlo hhi
  have hd : startCPUProfileCalls (w ++ [Event.log Level.debug "setting up interrupt signal" []])
      = startCPUProfileCalls w := by
    simp [startCPUProfileCalls]
  refine ⟨?_, ?_, ?_, hu.1, ?_, (processSignalBody_writes d w t hlo hhi).1, ?_, ?_⟩
  · rw [startCPUProfile_eq]
    exact wrapInt_succ hlo hhi
  · rw [startCPUProfile_eq]
    cases cpuOk <;> simp [startCPUProfileCalls]
  · rw [Start_eq]
    exact wrapInt_succ hlo hhi
  · rw [hu.1]; split_ifs <;> omega
  · intro hroom
    exact run_writes cs d w hlo hroom
  · intro hroom
    have hl := processSignalLoop_writes ts d
      (w ++ [Event.log Level.debug "setting up interrupt signal" []]) hlo hroom
    refine ⟨hl.1, ?_⟩
    have := hl.2
    rw [hd] at this
    exact this

/-- C9 amended, at a controller that has rotated four times. -/
theorem writes_only_increases_witness :
    (startCPUProfile { writes := 4, cpuprofFile := "x" } [] false).1.writes = 4 + 1
    ∧ (Update { writes := 4, cpuprofFile := "x" } [] true true).1.writes
        = (if ({ writes := 4, cpuprofFile := "x" } : Doctor).cpuprofFile = "" then 4
           else 4 + 1) :=
  have h := writes_only_increases { writes := 4, cpuprofFile := "x" } [] 0 true false
    { arrival := 1, nowLog := 2, nowCheck := 3, nowRecord := 4, memOk := true, cpuOk := true }
    [] [] (by decide) (by decide)
  ⟨h.1, by
    have h4 := (writes_only_increases { writes := 4, cpuprofFile := "x" } [] 0 true true
      { arrival := 1, nowLog := 2, nowCheck := 3, nowRecord := 4, memOk := true,
        cpuOk := true } [] [] (by decide) (by decide)).2.2.2.1
    exact h4⟩

/-- C10: `Update` never consults the `enable` flag: for every controller state and either
value of the flag, the effects are the same and the resulting controller is the same apart
from the flag it carries along.  On the never-activated controller that `StartWithFlags`
returns for the default flags, one `Update` calls `os.Create` on `prof.mprof` and on
`prof.cprof_1` and sets `writes` to 1; when both calls succeed these are the heap profile
file and the CPU profile file created. -/
theorem Update_ignores_enable (d : Doctor) (w : World) (memOk cpuOk e : Bool) (now : Time) :
    (Update { d with enable := e } w memOk cpuOk).2 = (Update d w memOk cpuOk).2
    ∧ (Update { d with enable := e } w memOk cpuOk).1
        = { (Update d w memOk cpuOk).1 with enable := e }
    ∧ (StartWithFlags {} [] now cpuOk).1.enable = false
    ∧ (StartWithFlags {} [] now cpuOk).2 = []
    ∧ (Update (StartWithFlags {} [] now cpuOk).1 [] memOk cpuOk).1.writes = 1
    ∧ createCalls (Update (StartWithFlags {} [] now cpuOk).1 [] memOk cpuOk).2
        = [("prof.mprof", memOk), ("prof.cprof_1", cpuOk)]
    ∧ heapFiles (Update (StartWithFlags {} [] now cpuOk).1 [] true true).2 = ["prof.mprof"]
    ∧ cpuFiles (Update (StartWithFlags {} [] now cpuOk).1 [] true true).2
        = ["prof.cprof_1"] := by
  have hs : StartWithFlags {} [] now cpuOk
      = ({ memprofFile := "prof.mprof", cpuprofFile := "prof.cprof", showGCStats := true,
           showMemStats := true, showGoroutineStats := true }, []) := by
    simp [StartWithFlags]
  have e1 : "prof.cprof_" ++ Itoa 1 = "prof.cprof_1" := by decide
  have v1 : wrapInt 1 = 1 := by decide
  refine ⟨?_, ?_, ?_, ?_, ?_, ?_, ?_, ?_⟩
  · rw [Update_snd, Update_snd]
    rfl
  · rw [Update_fst, Update_fst]
    by_cases hc : d.cpuprofFile = "" <;> simp [hc]
  · rw [hs]
  · rw [hs]
  · rw [hs, Update_fst]; simp [v1]
  · rw [hs, createCalls_Update]; simp [createCalls, e1, v1]
  · rw [hs, heapFiles_Update]; simp [heapFiles]
  · rw [hs, cpuFiles_Update]; simp [cpuFiles, e1, v1]

end GoDoctor
